import Mathlib

/-!
# carbon-go: `EstimateCO2` over an exact model of Go's `float64`

The program (`main.go`) is one function, `EstimateCO2`, over `float64`.
Go's `float64` is IEEE-754 binary64 with round-to-nearest, ties-to-even.
The operators the function uses (`<=`, `>`, `/`, `*`) are embedded here
exactly, so that overflow, underflow to zero, signed zeros, infinities and
NaN behave as they do in the compiled program.

Every finite binary64 value is an integer multiple of `2^-1074` (the smallest
subnormal).  A finite value is therefore stored as a sign and a natural number
`n`, meaning `± n * 2^-1074`; `n` is representable when it has at most 53
significant bits and is below `2^2098` (that is, `2^1024` in these units).
-/

namespace CarbonGo

/-- Values of Go's `float64`: NaN, the two infinities, and the finite values
`± n * 2^-1074` (with `neg = true` for the negative sign, so `fin true 0` is
negative zero). -/
inductive F64 where
  | nan : F64
  | inf (neg : Bool) : F64
  | fin (neg : Bool) (n : Nat) : F64
  deriving DecidableEq, Repr

namespace F64

/-- Number of units `2^-1074` in `1.0`. -/
@[irreducible] def scale : Nat := 2 ^ 1074

/-- Round the non-negative rational `p / q` to the nearest natural number,
ties to the even one. -/
def roundNE (p q : Nat) : Nat :=
  if 2 * (p % q) < q then p / q
  else if q < 2 * (p % q) then p / q + 1
  else if (p / q) % 2 = 0 then p / q else p / q + 1

/-- Helper of `ilog2`: at most `fuel` halvings. -/
def log2Fuel : Nat → Nat → Nat
  | 0, _ => 0
  | fuel + 1, n => if n < 2 then 0 else log2Fuel fuel (n / 2) + 1

/-- Position of the highest set bit of `n` (`0` for `n = 0`). -/
def ilog2 (n : Nat) : Nat := log2Fuel n n

/-- Binary exponent of the spacing of binary64 values around the magnitude
`f` (in units of `2^-1074`): `0` through the subnormals and the first normal
binade, then one more for each doubling. -/
def ulpExp (f : Nat) : Nat := ilog2 f - 52

/-- Round the non-negative rational `p / q` (in units of `2^-1074`) to the
nearest magnitude with 53 significant bits, ties to even, exponent unbounded
above. -/
def roundMag (p q : Nat) : Nat :=
  roundNE p (q * 2 ^ ulpExp (p / q)) * 2 ^ ulpExp (p / q)

/-- Magnitudes from here on (`2^1024`, in units of `2^-1074`) overflow. -/
@[irreducible] def overflowAt : Nat := 2 ^ 2098

/-- IEEE-754 rounding of the exact result `± p / q` (in units of `2^-1074`)
to binary64: nearest-even, overflow to infinity, underflow through the
subnormals to a signed zero. -/
def round (neg : Bool) (p q : Nat) : F64 :=
  if roundMag p q < overflowAt then fin neg (roundMag p q) else inf neg

/-- The magnitude `n` (in units of `2^-1074`) is one a binary64 value can have:
a multiple of the spacing at `n`, below the overflow threshold. -/
def representable (n : Nat) : Bool := n % 2 ^ ulpExp n == 0 && decide (n < overflowAt)

/-- The value is a binary64 value (every NaN and infinity is; a finite value is
when its magnitude is representable). -/
def valid : F64 → Bool
  | fin _ n => representable n
  | _ => true

/-- Conversion of a non-negative decimal constant `p / q` of the source to
`float64` (Go rounds a constant to the nearest representable value). -/
def ofRat (p q : Nat) : F64 := round false (p * scale) q

/-- The signed integer (in units of `2^-1074`) of a finite value. -/
def toInt (neg : Bool) (n : Nat) : Int := if neg then -(n : Int) else (n : Int)

/-- Go's `x < y` on `float64`. -/
def lt : F64 → F64 → Bool
  | nan, _ => false
  | _, nan => false
  | inf s, inf t => s && !t
  | inf s, fin _ _ => s
  | fin _ _, inf t => !t
  | fin s a, fin t b => decide (toInt s a < toInt t b)

/-- Go's `x <= y` on `float64`. -/
def le : F64 → F64 → Bool
  | nan, _ => false
  | _, nan => false
  | inf s, inf t => s || !t
  | inf s, fin _ _ => s
  | fin _ _, inf t => !t
  | fin s a, fin t b => decide (toInt s a ≤ toInt t b)

/-- Go's `x > y` on `float64`. -/
def gt (x y : F64) : Bool := lt y x

/-- Go's `x == y` on `float64` (NaN differs from everything, the two zeros
are equal). -/
def eq : F64 → F64 → Bool
  | nan, _ => false
  | _, nan => false
  | inf s, inf t => s == t
  | inf _, fin _ _ => false
  | fin _ _, inf _ => false
  | fin s a, fin t b => decide (toInt s a = toInt t b)

/-- Go's `x * y` on `float64`. -/
def mul : F64 → F64 → F64
  | nan, _ => nan
  | _, nan => nan
  | inf s, inf t => inf (xor s t)
  | inf s, fin t b => if b = 0 then nan else inf (xor s t)
  | fin s a, inf t => if a = 0 then nan else inf (xor s t)
  | fin s a, fin t b => round (xor s t) (a * b) scale

/-- Go's `x / y` on `float64`. -/
def div : F64 → F64 → F64
  | nan, _ => nan
  | _, nan => nan
  | inf _, inf _ => nan
  | inf s, fin t _ => inf (xor s t)
  | fin s _, inf t => fin (xor s t) 0
  | fin s a, fin t b =>
    if b = 0 then (if a = 0 then nan else inf (xor s t))
    else round (xor s t) (a * scale) b

/-- Go's `x + y` on `float64`. -/
def add : F64 → F64 → F64
  | nan, _ => nan
  | _, nan => nan
  | inf s, inf t => if s = t then inf s else nan
  | inf s, fin _ _ => inf s
  | fin _ _, inf t => inf t
  | fin s a, fin t b =>
    if toInt s a + toInt t b = 0 then fin (s && t) 0
    else round (decide (toInt s a + toInt t b < 0)) (toInt s a + toInt t b).natAbs 1

/-- The constant `0` as a `float64`. -/
def zero : F64 := fin false 0

/-- The value is neither NaN nor an infinity (`!math.IsNaN(x) && !math.IsInf(x, 0)`). -/
def isFinite : F64 → Bool
  | fin _ _ => true
  | _ => false

/-- The rational number `n * 2^-1074` that `n` units stand for. -/
def val (n : Nat) : ℚ := (n : ℚ) / (scale : ℚ)

/-- The rational number a finite value stands for (`0` for NaN and the
infinities, which stand for none). -/
def toRat : F64 → ℚ
  | fin false n => val n
  | fin true n => -val n
  | _ => 0

/-- Unit roundoff of binary64, `2^-53`: the largest relative error of one
correctly rounded operation whose result is normal. -/
def unitRoundoff : ℚ := 1 / 2 ^ 53

/-- `Near k X v`: `v` is within `k` roundings of `X`, that is
`X * (1 - 2^-53)^k ≤ v ≤ X * (1 + 2^-53)^k`. -/
def Near (k : Nat) (X v : ℚ) : Prop :=
  X * (1 - unitRoundoff) ^ k ≤ v ∧ v ≤ X * (1 + unitRoundoff) ^ k

/-- The power of two `2^e` as a `float64`, for `-1074 ≤ e`. -/
def twoPow (e : Int) : F64 := fin false (2 ^ (e + 1074).toNat)

/-- The test `2^-300 <= x && x <= 2^300`. -/
def moderate (x : F64) : Bool := le (twoPow (-300)) x && le x (twoPow 300)

/-- The test `2^-100 <= x && x <= 2^100`. -/
def moderate100 (x : F64) : Bool := le (twoPow (-100)) x && le x (twoPow 100)

/-- The sign bit (`math.Signbit`); the model has one NaN, without sign. -/
def signbit : F64 → Bool
  | nan => false
  | inf s => s
  | fin s _ => s

/-- `OrdNonneg x y`: neither is NaN, neither has the sign bit set, and `x` is
at most `y`. -/
def OrdNonneg : F64 → F64 → Prop
  | fin false a, fin false b => a ≤ b
  | fin false _, inf false => True
  | inf false, inf false => True
  | _, _ => False

/-- `WeakLE x y`: one of the two is NaN, or `OrdNonneg x y`. -/
def WeakLE (x y : F64) : Prop := x = nan ∨ y = nan ∨ OrdNonneg x y

/-- `Within lo hi x`: `x` is finite, non-negative, of magnitude between `lo`
and `hi` units of `2^-1074`. -/
def Within (lo hi : Nat) : F64 → Prop
  | fin false n => lo ≤ n ∧ n ≤ hi
  | _ => False

/-- `AtLeast m x`: `x` is positive infinity or a finite non-negative value of at
least `m` units of `2^-1074`. -/
def AtLeast (m : Nat) : F64 → Prop
  | fin false n => m ≤ n
  | inf false => True
  | _ => False

end F64

/-- Source constant `defaultCPUPowerKW = 0.05`, as the `float64` it is
assigned to. -/
def defaultCPUPowerKW : F64 := F64.ofRat 5 100

/-- Source constant `defaultCarbonIntensity = 475.0`. -/
def defaultCarbonIntensity : F64 := F64.ofRat 475 1

/-- Source type `Config`. -/
structure Config where
  CPUPowerKW : F64
  CarbonIntensity : F64
  deriving DecidableEq, Repr

/-- Message of the only error `EstimateCO2` creates. -/
def errMsg : String := "cpuSeconds must be greater than zero"

/-- The CPU power `EstimateCO2` uses: the default, replaced by the override
when a config is given and its `CPUPowerKW > 0`. -/
def resolvePower : Option Config → F64
  | none => defaultCPUPowerKW
  | some c => if F64.gt c.CPUPowerKW F64.zero then c.CPUPowerKW else defaultCPUPowerKW

/-- The carbon intensity `EstimateCO2` uses: the default, replaced by the
override when a config is given and its `CarbonIntensity > 0`. -/
def resolveIntensity : Option Config → F64
  | none => defaultCarbonIntensity
  | some c =>
    if F64.gt c.CarbonIntensity F64.zero then c.CarbonIntensity else defaultCarbonIntensity

/-- Source function `EstimateCO2(cpuSeconds, config) (float64, error)`; a nil
`config` is `none`, a nil error is `none`. -/
def EstimateCO2 (cpuSeconds : F64) (config : Option Config) : F64 × Option String :=
  if F64.le cpuSeconds F64.zero then (F64.zero, some errMsg)
  else
    let cpuPowerKW := resolvePower config
    let carbonIntensity := resolveIntensity config
    let timeHours := F64.div cpuSeconds (F64.ofRat 3600 1)
    let energyConsumption := F64.mul cpuPowerKW timeHours
    let co2 := F64.mul energyConsumption carbonIntensity
    (co2, none)

/-- One line written by `main` (the number is kept unformatted). -/
inductive Line where
  | error (msg : String) : Line
  | estimate (co2 : F64) : Line
  | estimateCustom (co2 : F64) : Line
  deriving DecidableEq, Repr

/-- Source function `main`: the lines it prints, in order. -/
def main : List Line :=
  let cpuSeconds := F64.ofRat 3600 1
  match EstimateCO2 cpuSeconds none with
  | (_, some err) => [Line.error err]
  | (co2, none) =>
    let customConfig : Config := { CPUPowerKW := F64.ofRat 8 100, CarbonIntensity := F64.ofRat 300 1 }
    match EstimateCO2 cpuSeconds (some customConfig) with
    | (_, some err) => [Line.estimate co2, Line.error err]
    | (co2Custom, none) => [Line.estimate co2, Line.estimateCustom co2Custom]

/-! ## Comparison and commutativity facts of the `float64` operators -/

theorem F64.not_le_of_gt (x y : F64) (h : F64.gt x y = true) : F64.le x y = false := by
  cases x <;> cases y <;> simp_all [F64.gt, F64.lt, F64.le]

theorem F64.not_gt_of_le (x y : F64) (h : F64.le x y = true) : F64.gt x y = false := by
  cases x <;> cases y <;> simp_all [F64.gt, F64.lt, F64.le]
  rename_i s t
  cases s <;> cases t <;> simp_all

theorem F64.mul_comm (x y : F64) : F64.mul x y = F64.mul y x := by
  cases x <;> cases y <;> simp [F64.mul, Bool.xor_comm, Nat.mul_comm]

/-! ## The input check -/

/-- Claim C1: whenever `cpuSeconds <= 0` holds (zero of either sign, every
negative value, negative infinity), for a nil config and for every config,
`EstimateCO2` returns the value `0` together with the error whose message is
"cpuSeconds must be greater than zero". -/
theorem estimateCO2_rejects_nonpositive (cpuSeconds : F64) (config : Option Config)
    (h : F64.le cpuSeconds F64.zero = true) :
    EstimateCO2 cpuSeconds config
      = (F64.fin false 0, some "cpuSeconds must be greater than zero") := by
  unfold EstimateCO2
  rw [if_pos h]
  rfl

theorem estimateCO2_rejects_nonpositive_witness :
    F64.le (F64.fin true (5 * F64.scale)) F64.zero = true ∧
    EstimateCO2 (F64.fin true (5 * F64.scale))
        (some { CPUPowerKW := F64.ofRat 8 100, CarbonIntensity := F64.fin true 7 })
      = (F64.fin false 0, some "cpuSeconds must be greater than zero") :=
  ⟨by decide!, estimateCO2_rejects_nonpositive _ _ (by decide!)⟩

/-- Claim C2: `EstimateCO2` returns an error exactly when `cpuSeconds <= 0`
holds; in particular for `cpuSeconds > 0` the error is nil, for a nil config
and for a config with any field values whatever. -/
theorem estimateCO2_error_iff (cpuSeconds : F64) (config : Option Config) :
    ((EstimateCO2 cpuSeconds config).2 ≠ none ↔ F64.le cpuSeconds F64.zero = true) ∧
    (F64.gt cpuSeconds F64.zero = true → (EstimateCO2 cpuSeconds config).2 = none) := by
  constructor
  · by_cases h : F64.le cpuSeconds F64.zero = true <;> simp [EstimateCO2, h]
  · intro h
    simp [EstimateCO2, F64.not_le_of_gt _ _ h]

theorem estimateCO2_error_iff_witness :
    F64.gt (F64.ofRat 1 2) F64.zero = true ∧
    (EstimateCO2 (F64.ofRat 1 2)
        (some { CPUPowerKW := F64.fin true 0, CarbonIntensity := F64.nan })).2 = none :=
  ⟨by decide!, (estimateCO2_error_iff _ _).2 (by decide!)⟩

/-! ## The formula and the resolution of the overrides -/

/-- Claim C3: for every `cpuSeconds > 0`, `EstimateCO2(cpuSeconds, nil)`
succeeds and returns `cpuSeconds/3600 * 0.05 * 475.0`, evaluated left to right
in `float64`. -/
theorem estimateCO2_nil_formula (cpuSeconds : F64)
    (h : F64.gt cpuSeconds F64.zero = true) :
    EstimateCO2 cpuSeconds none
      = (F64.mul (F64.mul (F64.div cpuSeconds (F64.ofRat 3600 1)) (F64.ofRat 5 100))
          (F64.ofRat 475 1), none) := by
  unfold EstimateCO2
  rw [F64.not_le_of_gt _ _ h]
  simp only [resolvePower, resolveIntensity, defaultCPUPowerKW, defaultCarbonIntensity]
  rw [F64.mul_comm (F64.ofRat 5 100)]
  rfl

theorem estimateCO2_nil_formula_witness :
    F64.gt (F64.ofRat 7 3) F64.zero = true ∧
    EstimateCO2 (F64.ofRat 7 3) none
      = (F64.mul (F64.mul (F64.div (F64.ofRat 7 3) (F64.ofRat 3600 1)) (F64.ofRat 5 100))
          (F64.ofRat 475 1), none) :=
  ⟨by decide!, estimateCO2_nil_formula _ (by decide!)⟩

/-- Claim C4: for every `cpuSeconds > 0` and every non-nil config the call
succeeds with `(P * (cpuSeconds / 3600)) * I`, where `P` is the config's
`CPUPowerKW` if that is `> 0` and `0.05` otherwise, and `I` is the config's
`CarbonIntensity` if that is `> 0` and `475.0` otherwise; each field is tested
on its own, which covers the four combinations. -/
theorem estimateCO2_config_formula (cpuSeconds : F64) (c : Config)
    (h : F64.gt cpuSeconds F64.zero = true) :
    EstimateCO2 cpuSeconds (some c)
      = (F64.mul
          (F64.mul (if F64.gt c.CPUPowerKW F64.zero = true then c.CPUPowerKW else F64.ofRat 5 100)
            (F64.div cpuSeconds (F64.ofRat 3600 1)))
          (if F64.gt c.CarbonIntensity F64.zero = true then c.CarbonIntensity
            else F64.ofRat 475 1), none) := by
  unfold EstimateCO2
  rw [F64.not_le_of_gt _ _ h]
  rfl

theorem estimateCO2_config_formula_witness :
    F64.gt (F64.ofRat 7 3) F64.zero = true ∧
    EstimateCO2 (F64.ofRat 7 3) (some (Config.mk (F64.fin true 3) (F64.ofRat 300 1)))
      = (F64.mul
          (F64.mul
            (if F64.gt (Config.mk (F64.fin true 3) (F64.ofRat 300 1)).CPUPowerKW F64.zero = true
              then (Config.mk (F64.fin true 3) (F64.ofRat 300 1)).CPUPowerKW else F64.ofRat 5 100)
            (F64.div (F64.ofRat 7 3) (F64.ofRat 3600 1)))
          (if F64.gt (Config.mk (F64.fin true 3) (F64.ofRat 300 1)).CarbonIntensity F64.zero = true
            then (Config.mk (F64.fin true 3) (F64.ofRat 300 1)).CarbonIntensity
            else F64.ofRat 475 1), none) :=
  ⟨by decide!, estimateCO2_config_formula _ _ (by decide!)⟩

/-- Claim C5: for every `cpuSeconds > 0` and every config with
`CPUPowerKW > 0` and `CarbonIntensity <= 0`, the power used is the override
and the intensity used is the default: the result is
`CPUPowerKW * (cpuSeconds/3600) * 475.0`. -/
theorem estimateCO2_power_only (cpuSeconds : F64) (c : Config)
    (h : F64.gt cpuSeconds F64.zero = true)
    (hp : F64.gt c.CPUPowerKW F64.zero = true)
    (hi : F64.le c.CarbonIntensity F64.zero = true) :
    EstimateCO2 cpuSeconds (some c)
      = (F64.mul (F64.mul c.CPUPowerKW (F64.div cpuSeconds (F64.ofRat 3600 1)))
          (F64.ofRat 475 1), none) := by
  unfold EstimateCO2
  rw [F64.not_le_of_gt _ _ h]
  simp only [resolvePower, resolveIntensity, defaultCarbonIntensity]
  rw [if_pos hp, F64.not_gt_of_le _ _ hi]
  simp only [Bool.false_eq_true, if_false]

theorem estimateCO2_power_only_witness :
    F64.gt (F64.ofRat 1800 1) F64.zero = true ∧
    EstimateCO2 (F64.ofRat 1800 1) (some (Config.mk (F64.ofRat 8 100) (F64.fin true 0)))
      = (F64.mul
          (F64.mul (Config.mk (F64.ofRat 8 100) (F64.fin true 0)).CPUPowerKW
            (F64.div (F64.ofRat 1800 1) (F64.ofRat 3600 1)))
          (F64.ofRat 475 1), none) :=
  ⟨by decide!, estimateCO2_power_only _ _ (by decide!) (by decide!) (by decide!)⟩

/-- Claim C6: a config whose two fields are both `<= 0` behaves as a nil
config, for every `cpuSeconds` (value and error alike); and
`EstimateCO2(1800, &Config{CPUPowerKW: 0})` succeeds with exactly `11.875`
(which is `95 * 2^1071` units of `2^-1074`). -/
theorem estimateCO2_nonpositive_overrides_absent :
    (∀ (cpuSeconds : F64) (c : Config),
      F64.le c.CPUPowerKW F64.zero = true → F64.le c.CarbonIntensity F64.zero = true →
      EstimateCO2 cpuSeconds (some c) = EstimateCO2 cpuSeconds none) ∧
    EstimateCO2 (F64.ofRat 1800 1) (some { CPUPowerKW := F64.zero, CarbonIntensity := F64.zero })
      = (F64.ofRat 11875 1000, none) ∧
    F64.ofRat 11875 1000 = F64.fin false (95 * 2 ^ 1071) := by
  refine ⟨?_, by decide!, by decide!⟩
  intro cpuSeconds c hp hi
  unfold EstimateCO2
  simp only [resolvePower, resolveIntensity]
  rw [F64.not_gt_of_le _ _ hp, F64.not_gt_of_le _ _ hi]
  simp only [Bool.false_eq_true, if_false]

theorem estimateCO2_nonpositive_overrides_absent_witness :
    F64.le (F64.fin true 12) F64.zero = true ∧ F64.le (F64.inf true) F64.zero = true ∧
    EstimateCO2 (F64.ofRat 3600 1) (some (Config.mk (F64.fin true 12) (F64.inf true)))
      = EstimateCO2 (F64.ofRat 3600 1) none :=
  ⟨by decide!, by decide!,
    estimateCO2_nonpositive_overrides_absent.1 _ _ (by decide!) (by decide!)⟩

/-! ## Arithmetic of the rounding function -/

theorem F64.log2Fuel_eq_log (fuel n : Nat) (h : n ≤ fuel) :
    F64.log2Fuel fuel n = Nat.log 2 n := by
  induction fuel generalizing n with
  | zero =>
    have hn : n = 0 := by omega
    subst hn
    simp [F64.log2Fuel]
  | succ k ih =>
    unfold F64.log2Fuel
    by_cases h2 : n < 2
    · rw [if_pos h2, Nat.log_of_lt h2]
    · rw [if_neg h2, ih (n / 2) (by omega),
        Nat.log_of_one_lt_of_le (by decide) (by omega : 2 ≤ n)]

theorem F64.ilog2_eq_log (n : Nat) : F64.ilog2 n = Nat.log 2 n :=
  F64.log2Fuel_eq_log n n (Nat.le_refl n)

theorem F64.ulpExp_mono {f g : Nat} (h : f ≤ g) : F64.ulpExp f ≤ F64.ulpExp g := by
  unfold F64.ulpExp
  rw [F64.ilog2_eq_log, F64.ilog2_eq_log]
  have := Nat.log_mono_right (b := 2) h
  omega

/-- The significand left after stripping the spacing has at most 53 bits. -/
theorem F64.div_ulp_lt (f : Nat) : f / 2 ^ F64.ulpExp f < 2 ^ 53 := by
  rw [Nat.div_lt_iff_lt_mul (Nat.pos_pow_of_pos _ (by decide)), ← pow_add]
  have h1 : f < 2 ^ (Nat.log 2 f).succ := Nat.lt_pow_succ_log_self (by decide) f
  have h2 : (Nat.log 2 f).succ ≤ 53 + F64.ulpExp f := by
    unfold F64.ulpExp
    rw [F64.ilog2_eq_log]
    omega
  exact lt_of_lt_of_le h1 (Nat.pow_le_pow_right (by decide) h2)

/-- Above the first normal binade the stripped significand has exactly 53 bits. -/
theorem F64.le_div_ulp (f : Nat) (h : 1 ≤ F64.ulpExp f) : 2 ^ 52 ≤ f / 2 ^ F64.ulpExp f := by
  rw [Nat.le_div_iff_mul_le (Nat.pos_pow_of_pos _ (by decide)), ← pow_add]
  have hf : f ≠ 0 := by
    rintro rfl
    simp [F64.ulpExp, F64.ilog2_eq_log] at h
  have h1 : 2 ^ Nat.log 2 f ≤ f := Nat.pow_log_le_self 2 hf
  have h2 : 52 + F64.ulpExp f = Nat.log 2 f := by
    unfold F64.ulpExp at h ⊢
    rw [F64.ilog2_eq_log] at h ⊢
    omega
  rw [h2]
  exact h1

theorem F64.le_roundNE (p q : Nat) : p / q ≤ F64.roundNE p q := by
  unfold F64.roundNE
  split_ifs <;> omega

theorem F64.roundNE_le (p q : Nat) : F64.roundNE p q ≤ p / q + 1 := by
  unfold F64.roundNE
  split_ifs <;> omega

theorem F64.roundNE_mono {p₁ p₂ : Nat} (q : Nat) (h : p₁ ≤ p₂) :
    F64.roundNE p₁ q ≤ F64.roundNE p₂ q := by
  have hd : p₁ / q ≤ p₂ / q := Nat.div_le_div_right h
  rcases Nat.lt_or_ge (p₁ / q) (p₂ / q) with hlt | hge
  · calc F64.roundNE p₁ q ≤ p₁ / q + 1 := F64.roundNE_le _ _
      _ ≤ p₂ / q := hlt
      _ ≤ F64.roundNE p₂ q := F64.le_roundNE _ _
  · have heq : p₁ / q = p₂ / q := Nat.le_antisymm hd hge
    have e₁ := Nat.div_add_mod p₁ q
    have e₂ := Nat.div_add_mod p₂ q
    rw [heq] at e₁
    have hr : p₁ % q ≤ p₂ % q := by omega
    unfold F64.roundNE
    rw [heq]
    split_ifs <;> omega

theorem F64.roundNE_scale (p q : Nat) : F64.roundNE (2 * p) (2 * q) = F64.roundNE p q := by
  unfold F64.roundNE
  rw [Nat.mul_div_mul_left p q (by decide : 0 < 2), Nat.mul_mod_mul_left]
  split_ifs <;> omega

theorem F64.roundNE_exact (m q : Nat) (hq : 0 < q) : F64.roundNE (m * q) q = m := by
  unfold F64.roundNE
  rw [Nat.mul_mod_left, Nat.mul_div_cancel _ hq]
  simp [hq]

/-- Rounding to binary64 precision is monotone in the numerator. -/
theorem F64.roundMag_mono {p₁ p₂ : Nat} (q : Nat) (h : p₁ ≤ p₂) :
    F64.roundMag p₁ q ≤ F64.roundMag p₂ q := by
  have hd : p₁ / q ≤ p₂ / q := Nat.div_le_div_right h
  have he : F64.ulpExp (p₁ / q) ≤ F64.ulpExp (p₂ / q) := F64.ulpExp_mono hd
  unfold F64.roundMag
  rcases Nat.lt_or_ge (F64.ulpExp (p₁ / q)) (F64.ulpExp (p₂ / q)) with hlt | hge
  · -- different binades: everything in the lower one stays below the upper one
    have hup : F64.roundNE p₁ (q * 2 ^ F64.ulpExp (p₁ / q)) ≤ 2 ^ 53 := by
      have h1 := F64.roundNE_le p₁ (q * 2 ^ F64.ulpExp (p₁ / q))
      have h2 := F64.div_ulp_lt (p₁ / q)
      rw [Nat.div_div_eq_div_mul] at h2
      omega
    have hlo : 2 ^ 52 ≤ F64.roundNE p₂ (q * 2 ^ F64.ulpExp (p₂ / q)) := by
      have h1 := F64.le_roundNE p₂ (q * 2 ^ F64.ulpExp (p₂ / q))
      have h2 := F64.le_div_ulp (p₂ / q) (by omega)
      rw [Nat.div_div_eq_div_mul] at h2
      omega
    calc F64.roundNE p₁ (q * 2 ^ F64.ulpExp (p₁ / q)) * 2 ^ F64.ulpExp (p₁ / q)
        ≤ 2 ^ 53 * 2 ^ F64.ulpExp (p₁ / q) := Nat.mul_le_mul_right _ hup
      _ = 2 ^ 52 * 2 ^ (F64.ulpExp (p₁ / q) + 1) := by rw [pow_succ]; ring
      _ ≤ 2 ^ 52 * 2 ^ F64.ulpExp (p₂ / q) :=
          Nat.mul_le_mul_left _ (Nat.pow_le_pow_right (by decide) hlt)
      _ ≤ F64.roundNE p₂ (q * 2 ^ F64.ulpExp (p₂ / q)) * 2 ^ F64.ulpExp (p₂ / q) :=
          Nat.mul_le_mul_right _ hlo
  · have heq : F64.ulpExp (p₁ / q) = F64.ulpExp (p₂ / q) := Nat.le_antisymm he hge
    rw [heq]
    exact Nat.mul_le_mul_right _ (F64.roundNE_mono _ h)

/-- A magnitude is kept by rounding when it is a multiple of its own spacing. -/
theorem F64.roundMag_exact (n q : Nat) (hq : 0 < q) (hn : n % 2 ^ F64.ulpExp n = 0) :
    F64.roundMag (n * q) q = n := by
  unfold F64.roundMag
  rw [Nat.mul_div_cancel _ hq]
  obtain ⟨m, hm⟩ := Nat.dvd_of_mod_eq_zero hn
  have hpos : 0 < q * 2 ^ F64.ulpExp n := Nat.mul_pos hq (Nat.pos_pow_of_pos _ (by decide))
  have e : n * q = m * (q * 2 ^ F64.ulpExp n) := by
    conv_lhs => rw [hm]
    ring
  rw [e, F64.roundNE_exact _ _ hpos]
  conv_rhs => rw [hm]
  ring

theorem F64.ulpExp_two_pow (k : Nat) : F64.ulpExp (2 ^ k) = k - 52 := by
  unfold F64.ulpExp
  rw [F64.ilog2_eq_log, Nat.log_pow (by decide)]

theorem F64.roundMag_two_pow (k q : Nat) (hq : 0 < q) : F64.roundMag (2 ^ k * q) q = 2 ^ k := by
  apply F64.roundMag_exact _ _ hq
  rw [F64.ulpExp_two_pow]
  exact Nat.mod_eq_zero_of_dvd (pow_dvd_pow 2 (Nat.sub_le k 52))

/-- Rounding does not go below a power of two that the exact value reaches. -/
theorem F64.two_pow_le_roundMag {k p q : Nat} (hq : 0 < q) (h : 2 ^ k ≤ p / q) :
    2 ^ k ≤ F64.roundMag p q := by
  have h1 : 2 ^ k * q ≤ p := (Nat.le_div_iff_mul_le hq).mp h
  calc 2 ^ k = F64.roundMag (2 ^ k * q) q := (F64.roundMag_two_pow k q hq).symm
    _ ≤ F64.roundMag p q := F64.roundMag_mono q h1

/-- Rounding does not go above a power of two that bounds the exact value. -/
theorem F64.roundMag_le_two_pow {k p q : Nat} (hq : 0 < q) (h : p ≤ 2 ^ k * q) :
    F64.roundMag p q ≤ 2 ^ k := by
  calc F64.roundMag p q ≤ F64.roundMag (2 ^ k * q) q := F64.roundMag_mono q h
    _ = 2 ^ k := F64.roundMag_two_pow k q hq

/-- From the first normal binade on, doubling the exact value doubles the
rounded one. -/
theorem F64.roundMag_double {p q : Nat} (hq : 0 < q) (h : 2 ^ 52 ≤ p / q) :
    F64.roundMag (2 * p) q = 2 * F64.roundMag p q := by
  have hf : p / q ≠ 0 := by
    have : 0 < 2 ^ 52 := Nat.pos_pow_of_pos _ (by decide)
    omega
  have hlog : 52 ≤ Nat.log 2 (p / q) := Nat.le_log_of_pow_le (by decide) h
  have hlo : 2 ^ (Nat.log 2 (p / q) + 1) ≤ 2 * p / q := by
    rw [Nat.le_div_iff_mul_le hq, pow_succ]
    have h1 : 2 ^ Nat.log 2 (p / q) ≤ p / q := Nat.pow_log_le_self 2 hf
    have h2 : 2 ^ Nat.log 2 (p / q) * q ≤ p := (Nat.le_div_iff_mul_le hq).mp h1
    nlinarith
  have hhi : 2 * p / q < 2 ^ (Nat.log 2 (p / q) + 1 + 1) := by
    rw [Nat.div_lt_iff_lt_mul hq]
    have h1 : p / q < 2 ^ (Nat.log 2 (p / q) + 1) := Nat.lt_pow_succ_log_self (by decide) _
    have h2 : p < 2 ^ (Nat.log 2 (p / q) + 1) * q := (Nat.div_lt_iff_lt_mul hq).mp h1
    rw [pow_succ (n := Nat.log 2 (p / q) + 1)]
    nlinarith
  have hlog2 : Nat.log 2 (2 * p / q) = Nat.log 2 (p / q) + 1 :=
    Nat.log_eq_of_pow_le_of_lt_pow hlo hhi
  have he : F64.ulpExp (2 * p / q) = F64.ulpExp (p / q) + 1 := by
    unfold F64.ulpExp
    rw [F64.ilog2_eq_log, F64.ilog2_eq_log, hlog2]
    omega
  unfold F64.roundMag
  rw [he, pow_succ, show q * (2 ^ F64.ulpExp (p / q) * 2) = 2 * (q * 2 ^ F64.ulpExp (p / q)) by ring,
    F64.roundNE_scale]
  ring

/-! ## Signs and lower bounds through the operators -/

theorem F64.ofRat_3600 : F64.ofRat 3600 1 = F64.fin false (3600 * F64.scale) := by decide!

theorem F64.scale_eq : F64.scale = 2 ^ 1074 := F64.scale.eq_1

theorem F64.pos_of_eq_two_pow {n k : Nat} (h : n = 2 ^ k) : 0 < n :=
  h ▸ Nat.two_pow_pos k

theorem F64.scale_pos : 0 < F64.scale := F64.pos_of_eq_two_pow F64.scale_eq

theorem F64.signbit_round (s : Bool) (p q : Nat) : F64.signbit (F64.round s p q) = s := by
  unfold F64.round
  split_ifs <;> rfl

theorem F64.signbit_mul (x y : F64) (hx : F64.signbit x = false) (hy : F64.signbit y = false) :
    F64.signbit (F64.mul x y) = false := by
  cases x <;> cases y <;> (try simp only [F64.signbit] at hx hy) <;> subst_vars <;>
    simp only [F64.mul] <;> (try split_ifs) <;> (try simp only [F64.signbit_round]) <;>
    simp [F64.signbit]

theorem F64.signbit_div (x y : F64) (hx : F64.signbit x = false) (hy : F64.signbit y = false) :
    F64.signbit (F64.div x y) = false := by
  cases x <;> cases y <;> (try simp only [F64.signbit] at hx hy) <;> subst_vars <;>
    simp only [F64.div] <;> (try split_ifs) <;> (try simp only [F64.signbit_round]) <;>
    simp [F64.signbit]

theorem F64.signbit_of_gt_zero (x : F64) (h : F64.gt x F64.zero = true) :
    F64.signbit x = false := by
  cases x with
  | nan => rfl
  | inf s => simpa [F64.gt, F64.lt, F64.zero, F64.signbit] using h
  | fin s n =>
    cases s with
    | false => rfl
    | true =>
      simp [F64.gt, F64.lt, F64.zero, F64.toInt] at h
      omega

theorem F64.not_lt_zero_of_signbit (x : F64) (h : F64.signbit x = false) :
    F64.lt x F64.zero = false := by
  cases x <;> simp_all [F64.lt, F64.zero, F64.signbit, F64.toInt]

theorem F64.atLeast_of_le_pos {m : Nat} (hm : 0 < m) (x : F64)
    (h : F64.le (F64.fin false m) x = true) : F64.AtLeast m x := by
  cases x with
  | nan => simp [F64.le] at h
  | inf s => cases s <;> simp_all [F64.le, F64.AtLeast]
  | fin s n =>
    cases s with
    | false => simpa [F64.le, F64.toInt, F64.AtLeast] using h
    | true =>
      simp [F64.le, F64.toInt] at h
      omega

theorem F64.atLeast_of_le {k : Nat} (x : F64)
    (h : F64.le (F64.fin false (2 ^ k)) x = true) : F64.AtLeast (2 ^ k) x :=
  F64.atLeast_of_le_pos (Nat.two_pow_pos k) x h

theorem F64.gt_zero_of_atLeast_pos {m : Nat} (hm : 0 < m) (x : F64) (h : F64.AtLeast m x) :
    F64.gt x F64.zero = true := by
  cases x with
  | nan => simp [F64.AtLeast] at h
  | inf s => cases s <;> simp_all [F64.AtLeast, F64.gt, F64.lt, F64.zero]
  | fin s n =>
    cases s with
    | false =>
      simp only [F64.AtLeast] at h
      simp [F64.gt, F64.lt, F64.zero, F64.toInt]
      omega
    | true => simp [F64.AtLeast] at h

theorem F64.gt_zero_of_atLeast {k : Nat} (x : F64) (h : F64.AtLeast (2 ^ k) x) :
    F64.gt x F64.zero = true :=
  F64.gt_zero_of_atLeast_pos (Nat.two_pow_pos k) x h

theorem F64.atLeast_round {k p q : Nat} (hq : 0 < q) (h : 2 ^ k ≤ p / q) :
    F64.AtLeast (2 ^ k) (F64.round false p q) := by
  unfold F64.round
  split_ifs
  · exact F64.two_pow_le_roundMag hq h
  · trivial

theorem F64.atLeast_div_3600 {j : Nat} (k : Nat) (x : F64) (hk : j = k + 12)
    (h : F64.AtLeast (2 ^ j) x) :
    F64.AtLeast (2 ^ k) (F64.div x (F64.ofRat 3600 1)) := by
  subst hk
  have hS := F64.scale_pos
  have hq : 0 < 3600 * F64.scale := Nat.mul_pos (by decide) hS
  rw [F64.ofRat_3600]
  cases x with
  | nan => simp [F64.AtLeast] at h
  | inf s =>
    cases s with
    | false => simp [F64.div, F64.AtLeast]
    | true => simp [F64.AtLeast] at h
  | fin s a =>
    cases s with
    | true => simp [F64.AtLeast] at h
    | false =>
      simp only [F64.AtLeast] at h
      simp only [F64.div, if_neg (Nat.ne_of_gt hq), Bool.xor_false]
      apply F64.atLeast_round hq
      rw [Nat.mul_div_mul_right _ _ hS, Nat.le_div_iff_mul_le (by decide)]
      rw [pow_add] at h
      omega

theorem F64.atLeast_mul {i j : Nat} (x y : F64) (hx : F64.AtLeast (2 ^ i) x)
    (hy : F64.AtLeast (2 ^ j) y) (hij : 1074 ≤ i + j) :
    F64.AtLeast (2 ^ (i + j - 1074)) (F64.mul x y) := by
  have hi : 0 < 2 ^ i := Nat.two_pow_pos i
  have hj : 0 < 2 ^ j := Nat.two_pow_pos j
  rcases x with _ | s | ⟨s, a⟩ <;> rcases y with _ | t | ⟨t, b⟩ <;>
    (try cases s) <;> (try cases t) <;>
    simp only [F64.AtLeast] at hx hy <;> simp only [F64.mul, Bool.xor_false]
  · trivial
  · rw [if_neg (by omega)]
    trivial
  · rw [if_neg (by omega)]
    trivial
  · apply F64.atLeast_round F64.scale_pos
    rw [Nat.le_div_iff_mul_le F64.scale_pos, F64.scale_eq, ← pow_add,
      show i + j - 1074 + 1074 = i + j by omega, pow_add]
    exact Nat.mul_le_mul hx hy

/-! ## Sign and positivity of the estimate -/

theorem estimateCO2_of_gt (cpuSeconds : F64) (config : Option Config)
    (h : F64.gt cpuSeconds F64.zero = true) :
    EstimateCO2 cpuSeconds config
      = (F64.mul (F64.mul (resolvePower config) (F64.div cpuSeconds (F64.ofRat 3600 1)))
          (resolveIntensity config), none) := by
  unfold EstimateCO2
  rw [F64.not_le_of_gt _ _ h]
  rfl

theorem resolvePower_pos (config : Option Config) :
    F64.gt (resolvePower config) F64.zero = true := by
  cases config with
  | none => decide!
  | some c =>
    simp only [resolvePower]
    split_ifs with h
    · exact h
    · decide!

theorem resolveIntensity_pos (config : Option Config) :
    F64.gt (resolveIntensity config) F64.zero = true := by
  cases config with
  | none => decide!
  | some c =>
    simp only [resolveIntensity]
    split_ifs with h
    · exact h
    · decide!

theorem F64.twoPow_neg_300 : F64.twoPow (-300) = F64.fin false (2 ^ 774) := by decide!

/-- Claim C7, as stated, fails: the smallest positive `float64` (`5e-324`, one
unit of `2^-1074`) is `> 0`, and with a nil config the quotient by 3600
underflows, so the call succeeds with the value `0`, which is not `> 0`. -/
theorem estimateCO2_underflow_not_positive :
    F64.gt (F64.fin false 1) F64.zero = true ∧
    EstimateCO2 (F64.fin false 1) none = (F64.fin false 0, none) ∧
    ¬ (F64.gt (EstimateCO2 (F64.fin false 1) none).1 F64.zero = true) := by decide!

/-- Claim C7 (amended): for every `cpuSeconds > 0` and every config (nil or
not, any field values) the call succeeds and its result is never less than
zero; the result is strictly greater than zero whenever `cpuSeconds`, the CPU
power used and the carbon intensity used are each at least `2^-300`, which
keeps the quotient and both products clear of underflow. -/
theorem estimateCO2_sign (cpuSeconds : F64) (config : Option Config)
    (h : F64.gt cpuSeconds F64.zero = true) :
    (EstimateCO2 cpuSeconds config).2 = none ∧
    F64.lt (EstimateCO2 cpuSeconds config).1 F64.zero = false ∧
    (F64.le (F64.twoPow (-300)) cpuSeconds = true →
      F64.le (F64.twoPow (-300)) (resolvePower config) = true →
      F64.le (F64.twoPow (-300)) (resolveIntensity config) = true →
      F64.gt (EstimateCO2 cpuSeconds config).1 F64.zero = true) := by
  rw [estimateCO2_of_gt _ _ h]
  refine ⟨rfl, ?_, ?_⟩
  · apply F64.not_lt_zero_of_signbit
    apply F64.signbit_mul
    · apply F64.signbit_mul
      · exact F64.signbit_of_gt_zero _ (resolvePower_pos config)
      · apply F64.signbit_div _ _ (F64.signbit_of_gt_zero _ h)
        rw [F64.ofRat_3600]
        rfl
    · exact F64.signbit_of_gt_zero _ (resolveIntensity_pos config)
  · intro ht hp hi
    rw [F64.twoPow_neg_300] at ht hp hi
    have ht := F64.atLeast_of_le _ ht
    have hp := F64.atLeast_of_le _ hp
    have hi := F64.atLeast_of_le _ hi
    have h1 := F64.atLeast_div_3600 762 cpuSeconds (by decide) ht
    have h2 := F64.atLeast_mul _ _ hp h1 (by decide)
    have h3 := F64.atLeast_mul _ _ h2 hi (by decide)
    exact F64.gt_zero_of_atLeast _ h3

theorem estimateCO2_sign_witness :
    F64.gt (F64.ofRat 3600 1) F64.zero = true ∧
    (EstimateCO2 (F64.ofRat 3600 1) none).2 = none ∧
    F64.lt (EstimateCO2 (F64.ofRat 3600 1) none).1 F64.zero = false ∧
    F64.gt (EstimateCO2 (F64.ofRat 3600 1) none).1 F64.zero = true :=
  ⟨by decide!, (estimateCO2_sign _ none (by decide!)).1,
    (estimateCO2_sign _ none (by decide!)).2.1,
    (estimateCO2_sign _ none (by decide!)).2.2 (by decide!) (by decide!) (by decide!)⟩

/-! ## Monotonicity through the operators -/

theorem F64.ordNonneg_round {p₁ p₂ : Nat} (q : Nat) (h : p₁ ≤ p₂) :
    F64.OrdNonneg (F64.round false p₁ q) (F64.round false p₂ q) := by
  have hm := F64.roundMag_mono q h
  unfold F64.round
  split_ifs <;> simp only [F64.OrdNonneg]
  · exact hm
  · omega

theorem F64.ordNonneg_round_inf (p q : Nat) :
    F64.OrdNonneg (F64.round false p q) (F64.inf false) := by
  unfold F64.round
  split_ifs <;> simp only [F64.OrdNonneg]

theorem F64.ordNonneg_of_lt (a b : F64) (ha : F64.gt a F64.zero = true)
    (hab : F64.lt a b = true) : F64.OrdNonneg a b := by
  rcases a with _ | s | ⟨s, n⟩ <;> rcases b with _ | t | ⟨t, m⟩ <;>
    (try cases s) <;> (try cases t) <;>
    simp [F64.gt, F64.lt, F64.zero, F64.toInt, F64.OrdNonneg] at ha hab ⊢
  all_goals omega

theorem F64.gt_zero_of_ordNonneg (a b : F64) (ha : F64.gt a F64.zero = true)
    (hab : F64.OrdNonneg a b) : F64.gt b F64.zero = true := by
  rcases a with _ | s | ⟨s, n⟩ <;> rcases b with _ | t | ⟨t, m⟩ <;>
    (try cases s) <;> (try cases t) <;>
    simp [F64.gt, F64.lt, F64.zero, F64.toInt, F64.OrdNonneg] at ha hab ⊢
  all_goals omega

theorem F64.ordNonneg_div_3600 (x y : F64) (h : F64.OrdNonneg x y) :
    F64.OrdNonneg (F64.div x (F64.ofRat 3600 1)) (F64.div y (F64.ofRat 3600 1)) := by
  have hq : 3600 * F64.scale ≠ 0 := Nat.ne_of_gt (Nat.mul_pos (by decide) F64.scale_pos)
  rw [F64.ofRat_3600]
  rcases x with _ | s | ⟨s, a⟩ <;> rcases y with _ | t | ⟨t, b⟩ <;>
    (try cases s) <;> (try cases t) <;>
    simp only [F64.OrdNonneg] at h <;>
    simp only [F64.div, if_neg hq, Bool.xor_false]
  · trivial
  · exact F64.ordNonneg_round_inf _ _
  · exact F64.ordNonneg_round _ (Nat.mul_le_mul_right _ h)

theorem F64.weakLE_mul_right (x y c : F64) (h : F64.WeakLE x y)
    (hc : F64.gt c F64.zero = true) : F64.WeakLE (F64.mul x c) (F64.mul y c) := by
  rcases h with rfl | rfl | h
  · exact Or.inl (by cases c <;> rfl)
  · exact Or.inr (Or.inl (by cases x <;> cases c <;> rfl))
  · rcases c with _ | u | ⟨u, i⟩
    · simp [F64.gt, F64.lt, F64.zero] at hc
    · cases u with
      | true => simp [F64.gt, F64.lt, F64.zero] at hc
      | false =>
        rcases x with _ | s | ⟨s, a⟩ <;> rcases y with _ | t | ⟨t, b⟩ <;>
          (try cases s) <;> (try cases t) <;>
          simp only [F64.OrdNonneg] at h <;>
          simp only [F64.mul, Bool.xor_false, F64.WeakLE] <;>
          (try split_ifs) <;> simp [F64.OrdNonneg]
    · cases u with
      | true =>
        simp [F64.gt, F64.lt, F64.zero, F64.toInt] at hc
        omega
      | false =>
        have hi : i ≠ 0 := by
          simp [F64.gt, F64.lt, F64.zero, F64.toInt] at hc
          omega
        rcases x with _ | s | ⟨s, a⟩ <;> rcases y with _ | t | ⟨t, b⟩ <;>
          (try cases s) <;> (try cases t) <;>
          simp only [F64.OrdNonneg] at h <;>
          simp only [F64.mul, Bool.xor_false, if_neg hi, F64.WeakLE]
        · exact Or.inr (Or.inr trivial)
        · exact Or.inr (Or.inr (F64.ordNonneg_round_inf _ _))
        · exact Or.inr (Or.inr (F64.ordNonneg_round _ (Nat.mul_le_mul_right _ h)))

theorem F64.weakLE_mul_left (c x y : F64) (h : F64.WeakLE x y)
    (hc : F64.gt c F64.zero = true) : F64.WeakLE (F64.mul c x) (F64.mul c y) := by
  rw [F64.mul_comm c x, F64.mul_comm c y]
  exact F64.weakLE_mul_right x y c h hc

theorem F64.not_lt_of_weakLE (x y : F64) (h : F64.WeakLE x y) : F64.lt y x = false := by
  rcases h with rfl | rfl | h
  · cases y <;> rfl
  · cases x <;> rfl
  · rcases x with _ | s | ⟨s, a⟩ <;> rcases y with _ | t | ⟨t, b⟩ <;>
      (try cases s) <;> (try cases t) <;>
      simp [F64.lt, F64.toInt, F64.OrdNonneg] at h ⊢
    omega

theorem F64.le_of_weakLE (x y : F64) (h : F64.WeakLE x y) (hx : x ≠ F64.nan)
    (hy : y ≠ F64.nan) : F64.le x y = true := by
  rcases h with rfl | rfl | h
  · exact absurd rfl hx
  · exact absurd rfl hy
  · rcases x with _ | s | ⟨s, a⟩ <;> rcases y with _ | t | ⟨t, b⟩ <;>
      (try cases s) <;> (try cases t) <;>
      simp [F64.le, F64.toInt, F64.OrdNonneg] at h ⊢
    omega

/-! ## Monotonicity of the estimate in `cpuSeconds` -/

/-- Claim C8, as stated, fails: `86400` (one day) and the next `float64`
above it, `86400 + 2^-36`, are both `> 0` and ordered, yet with a nil config
both calls return the same value (`570.0000000000001`), so the first result
is not less than the second. -/
theorem estimateCO2_not_strictly_increasing :
    F64.gt (F64.ofRat 86400 1) F64.zero = true ∧
    F64.lt (F64.ofRat 86400 1) (F64.ofRat 5937362789990401 68719476736) = true ∧
    F64.ofRat 5937362789990401 68719476736
      = F64.fin false (86400 * 2 ^ 1074 + 2 ^ 1038) ∧
    EstimateCO2 (F64.ofRat 86400 1) none
      = EstimateCO2 (F64.ofRat 5937362789990401 68719476736) none ∧
    ¬ (F64.lt (EstimateCO2 (F64.ofRat 86400 1) none).1
        (EstimateCO2 (F64.ofRat 5937362789990401 68719476736) none).1 = true) := by
  decide!

/-! ## Exact doubling away from underflow and overflow -/

theorem F64.log_mul_two_pow (m e : Nat) (hm : m ≠ 0) :
    Nat.log 2 (m * 2 ^ e) = Nat.log 2 m + e := by
  induction e with
  | zero => simp
  | succ k ih =>
    have hne : m * 2 ^ k ≠ 0 := Nat.mul_ne_zero hm (Nat.ne_of_gt (Nat.two_pow_pos k))
    rw [pow_succ, ← Nat.mul_assoc, Nat.log_mul_base (by decide) hne, ih]
    omega

/-- What rounding returns is a multiple of the spacing at the returned value. -/
theorem F64.roundMag_spacing (p q : Nat) :
    F64.roundMag p q % 2 ^ F64.ulpExp (F64.roundMag p q) = 0 := by
  apply Nat.mod_eq_zero_of_dvd
  have hm : F64.roundNE p (q * 2 ^ F64.ulpExp (p / q)) ≤ 2 ^ 53 := by
    have h1 := F64.roundNE_le p (q * 2 ^ F64.ulpExp (p / q))
    have h2 := F64.div_ulp_lt (p / q)
    rw [Nat.div_div_eq_div_mul] at h2
    omega
  unfold F64.roundMag
  generalize F64.roundNE p (q * 2 ^ F64.ulpExp (p / q)) = m at hm
  generalize F64.ulpExp (p / q) = e
  rcases Nat.eq_zero_or_pos m with h0 | hpos
  · subst h0
    simp
  · rcases Nat.lt_or_ge m (2 ^ 53) with hlt | hge
    · have hlog : Nat.log 2 m < 53 := Nat.log_lt_of_lt_pow (Nat.ne_of_gt hpos) hlt
      have he : F64.ulpExp (m * 2 ^ e) ≤ e := by
        unfold F64.ulpExp
        rw [F64.ilog2_eq_log, F64.log_mul_two_pow m e (Nat.ne_of_gt hpos)]
        omega
      exact Dvd.dvd.mul_left (pow_dvd_pow 2 he) m
    · have hm2 : m = 2 ^ 53 := Nat.le_antisymm hm hge
      rw [hm2, ← pow_add, F64.ulpExp_two_pow]
      exact pow_dvd_pow 2 (by omega)

theorem F64.overflowAt_eq : F64.overflowAt = 2 ^ 2098 := F64.overflowAt.eq_1

theorem F64.two_pow_lt_of_eq {n k m : Nat} (hn : n = 2 ^ k) (h : m < k) : 2 ^ m < n :=
  hn ▸ Nat.pow_lt_pow_right (by decide) h

theorem F64.two_pow_lt_overflowAt {m : Nat} (h : m < 2098) : 2 ^ m < F64.overflowAt :=
  F64.two_pow_lt_of_eq F64.overflowAt_eq h

/-- Away from underflow and overflow, rounding returns a finite value, and
rounding twice the exact value returns twice that. -/
theorem F64.round_double (s : Bool) {p q m : Nat} (hq : 0 < q) (h52 : 2 ^ 52 ≤ p / q)
    (hm : p ≤ 2 ^ m * q) (hm2 : m + 1 < 2098) :
    F64.round s p q = F64.fin s (F64.roundMag p q) ∧
    F64.round s (2 * p) q = F64.fin s (2 * F64.roundMag p q) := by
  have hu : F64.roundMag p q ≤ 2 ^ m := F64.roundMag_le_two_pow hq hm
  have ho := F64.two_pow_lt_overflowAt hm2
  rw [pow_succ] at ho
  unfold F64.round
  rw [F64.roundMag_double hq h52, if_pos (by omega), if_pos (by omega)]
  exact ⟨rfl, rfl⟩

theorem F64.within_of_le_pos {lo hi : Nat} (hpos : 0 < lo) (x : F64)
    (hlo : F64.le (F64.fin false lo) x = true) (hhi : F64.le x (F64.fin false hi) = true) :
    F64.Within lo hi x := by
  rcases x with _ | s | ⟨s, n⟩
  · simp [F64.le] at hlo
  · cases s <;> simp [F64.le] at hlo hhi
  · cases s with
    | false => simpa [F64.le, F64.toInt, F64.Within] using And.intro hlo hhi
    | true =>
      simp [F64.le, F64.toInt] at hlo
      omega

theorem F64.within_of_le {k m : Nat} (x : F64)
    (hlo : F64.le (F64.fin false (2 ^ k)) x = true)
    (hhi : F64.le x (F64.fin false (2 ^ m)) = true) : F64.Within (2 ^ k) (2 ^ m) x :=
  F64.within_of_le_pos (Nat.two_pow_pos k) x hlo hhi

/-- Quotient by 3600 of a value and of its double, away from underflow and
overflow. -/
theorem F64.div_3600_double {j l : Nat} (k m a : Nat) (hj : j = k + 12) (hl : l = m + 11)
    (hk : 52 ≤ k) (hm : m + 1 < 2098) (hlo : 2 ^ j ≤ a) (hhi : a ≤ 2 ^ l) :
    ∃ h, (2 ^ k ≤ h ∧ h ≤ 2 ^ m) ∧
      F64.div (F64.fin false a) (F64.ofRat 3600 1) = F64.fin false h ∧
      F64.div (F64.fin false (2 * a)) (F64.ofRat 3600 1) = F64.fin false (2 * h) := by
  subst hj hl
  have hS := F64.scale_pos
  have hq : 0 < 3600 * F64.scale := Nat.mul_pos (by decide) hS
  have hf : 2 ^ k ≤ a * F64.scale / (3600 * F64.scale) := by
    rw [Nat.mul_div_mul_right _ _ hS, Nat.le_div_iff_mul_le (by decide)]
    rw [pow_add] at hlo
    omega
  have hu : a * F64.scale ≤ 2 ^ m * (3600 * F64.scale) := by
    rw [← Nat.mul_assoc]
    apply Nat.mul_le_mul_right
    rw [pow_add] at hhi
    omega
  have h52 : 2 ^ 52 ≤ a * F64.scale / (3600 * F64.scale) :=
    le_trans (Nat.pow_le_pow_right (by decide) hk) hf
  obtain ⟨e₁, e₂⟩ := F64.round_double false hq h52 hu hm
  refine ⟨F64.roundMag (a * F64.scale) (3600 * F64.scale),
    ⟨F64.two_pow_le_roundMag hq hf, F64.roundMag_le_two_pow hq hu⟩, ?_, ?_⟩
  · rw [F64.ofRat_3600]
    simp only [F64.div, if_neg (Nat.ne_of_gt hq), Bool.xor_false]
    exact e₁
  · rw [F64.ofRat_3600]
    simp only [F64.div, if_neg (Nat.ne_of_gt hq), Bool.xor_false]
    rw [Nat.mul_assoc]
    exact e₂

/-- Product of two values, and of one doubled with the other, away from
underflow and overflow. -/
theorem F64.mul_double {k₁ m₁ k₂ m₂ x y : Nat} (hk : 1074 + 52 ≤ k₁ + k₂)
    (hm : m₁ + m₂ - 1074 + 1 < 2098) (hm0 : 1074 ≤ m₁ + m₂)
    (hx : 2 ^ k₁ ≤ x ∧ x ≤ 2 ^ m₁) (hy : 2 ^ k₂ ≤ y ∧ y ≤ 2 ^ m₂) :
    (2 ^ (k₁ + k₂ - 1074) ≤ F64.roundMag (x * y) F64.scale ∧
      F64.roundMag (x * y) F64.scale ≤ 2 ^ (m₁ + m₂ - 1074)) ∧
    F64.mul (F64.fin false x) (F64.fin false y)
      = F64.fin false (F64.roundMag (x * y) F64.scale) ∧
    F64.mul (F64.fin false (2 * x)) (F64.fin false y)
      = F64.fin false (2 * F64.roundMag (x * y) F64.scale) ∧
    F64.mul (F64.fin false x) (F64.fin false (2 * y))
      = F64.fin false (2 * F64.roundMag (x * y) F64.scale) := by
  have hS := F64.scale_pos
  have hf : 2 ^ (k₁ + k₂ - 1074) ≤ x * y / F64.scale := by
    rw [Nat.le_div_iff_mul_le hS, F64.scale_eq, ← pow_add,
      show k₁ + k₂ - 1074 + 1074 = k₁ + k₂ by omega, pow_add]
    exact Nat.mul_le_mul hx.1 hy.1
  have hu : x * y ≤ 2 ^ (m₁ + m₂ - 1074) * F64.scale := by
    rw [F64.scale_eq, ← pow_add, show m₁ + m₂ - 1074 + 1074 = m₁ + m₂ by omega, pow_add]
    exact Nat.mul_le_mul hx.2 hy.2
  have h52 : 2 ^ 52 ≤ x * y / F64.scale :=
    le_trans (Nat.pow_le_pow_right (by decide) (by omega)) hf
  obtain ⟨e₁, e₂⟩ := F64.round_double false hS h52 hu hm
  refine ⟨⟨F64.two_pow_le_roundMag hS hf, F64.roundMag_le_two_pow hS hu⟩, ?_, ?_, ?_⟩
  · simp only [F64.mul, Bool.xor_false]
    exact e₁
  · simp only [F64.mul, Bool.xor_false]
    rw [Nat.mul_assoc]
    exact e₂
  · simp only [F64.mul, Bool.xor_false]
    rw [Nat.mul_left_comm]
    exact e₂

theorem F64.ofRat_two : F64.ofRat 2 1 = F64.fin false (2 * F64.scale) := by decide!

theorem F64.twoPow_300 : F64.twoPow 300 = F64.fin false (2 ^ 1374) := by decide!

theorem F64.within_of_moderate (x : F64) (h : F64.moderate x = true) :
    F64.Within (2 ^ 774) (2 ^ 1374) x := by
  unfold F64.moderate at h
  rw [Bool.and_eq_true, F64.twoPow_neg_300, F64.twoPow_300] at h
  exact F64.within_of_le x h.1 h.2

/-- The product `2 * x` is exact for a binary64 magnitude away from underflow
and overflow. -/
theorem F64.two_mul_fin {k m c : Nat} (hk : 52 ≤ k) (hm : m + 1 < 2098)
    (hc : 2 ^ k ≤ c ∧ c ≤ 2 ^ m) (hsp : c % 2 ^ F64.ulpExp c = 0) :
    F64.mul (F64.ofRat 2 1) (F64.fin false c) = F64.fin false (2 * c) := by
  have hx : 2 ^ 1074 ≤ F64.scale ∧ F64.scale ≤ 2 ^ 1074 :=
    ⟨le_of_eq F64.scale_eq.symm, le_of_eq F64.scale_eq⟩
  have h := (F64.mul_double (by omega) (by omega) (by omega) hx hc).2.2.1
  rw [F64.ofRat_two, h, Nat.mul_comm F64.scale c, F64.roundMag_exact c _ F64.scale_pos hsp]

/-! ## Scaling of the estimate -/

/-- Claim C9, as stated, fails: for `t = 2^-1022` (the smallest positive
normal `float64`) and a nil config both calls succeed, but
`EstimateCO2(2*t, nil)` differs from `2 * EstimateCO2(t, nil)`: the quotient
`t / 3600` is subnormal and is rounded at a coarser relative precision than
`2*t / 3600`. -/
theorem estimateCO2_double_fails_subnormal :
    F64.gt (F64.twoPow (-1022)) F64.zero = true ∧
    (EstimateCO2 (F64.mul (F64.ofRat 2 1) (F64.twoPow (-1022))) none).2 = none ∧
    (EstimateCO2 (F64.twoPow (-1022)) none).2 = none ∧
    ¬ (F64.eq (EstimateCO2 (F64.mul (F64.ofRat 2 1) (F64.twoPow (-1022))) none).1
        (F64.mul (F64.ofRat 2 1) (EstimateCO2 (F64.twoPow (-1022)) none).1) = true) := by
  decide!

/-- Claim C9 (amended): for every `float64` value `t` with
`2^-300 <= t <= 2^300` and every config (nil or not) for which the CPU power
used and the carbon intensity used lie in the same range, both calls succeed
and `EstimateCO2(2*t, config) == 2 * EstimateCO2(t, config)`. -/
theorem estimateCO2_double (t : F64) (config : Option Config)
    (hv : F64.valid t = true) (ht : F64.moderate t = true)
    (hp : F64.moderate (resolvePower config) = true)
    (hi : F64.moderate (resolveIntensity config) = true) :
    (EstimateCO2 (F64.mul (F64.ofRat 2 1) t) config).2 = none ∧
    (EstimateCO2 t config).2 = none ∧
    F64.eq (EstimateCO2 (F64.mul (F64.ofRat 2 1) t) config).1
      (F64.mul (F64.ofRat 2 1) (EstimateCO2 t config).1) = true := by
  have wt := F64.within_of_moderate _ ht
  have wp := F64.within_of_moderate _ hp
  have wi := F64.within_of_moderate _ hi
  rcases t with _ | s | ⟨s, a⟩
  · simp [F64.Within] at wt
  · simp [F64.Within] at wt
  cases s with
  | true => simp [F64.Within] at wt
  | false =>
    simp only [F64.Within] at wt
    have hsp : a % 2 ^ F64.ulpExp a = 0 := by
      simp only [F64.valid, F64.representable, Bool.and_eq_true, beq_iff_eq] at hv
      exact hv.1
    have h2t := F64.two_mul_fin (by decide) (by decide) wt hsp
    have hpos : F64.gt (F64.fin false a) F64.zero = true :=
      F64.gt_zero_of_atLeast _ (show F64.AtLeast (2 ^ 774) (F64.fin false a) from wt.1)
    have hpos2 : F64.gt (F64.fin false (2 * a)) F64.zero = true :=
      F64.gt_zero_of_atLeast _
        (show F64.AtLeast (2 ^ 774) (F64.fin false (2 * a)) from
          le_trans wt.1 (Nat.le_mul_of_pos_left a (by decide)))
    rw [h2t, estimateCO2_of_gt _ _ hpos, estimateCO2_of_gt _ _ hpos2]
    generalize resolvePower config = P at wp
    generalize resolveIntensity config = I at wi
    rcases P with _ | u | ⟨u, b⟩
    · simp [F64.Within] at wp
    · simp [F64.Within] at wp
    rcases I with _ | v | ⟨v, i⟩
    · simp [F64.Within] at wi
    · simp [F64.Within] at wi
    cases u with
    | true => simp [F64.Within] at wp
    | false =>
      cases v with
      | true => simp [F64.Within] at wi
      | false =>
        simp only [F64.Within] at wp wi
        obtain ⟨h, hh, d₁, d₂⟩ :=
          F64.div_3600_double 762 1363 a (by decide) (by decide) (by decide) (by decide)
            wt.1 wt.2
        obtain ⟨he, m₁, -, m₂⟩ :=
          F64.mul_double (by decide) (by decide) (by decide) wp hh
        obtain ⟨hc, n₁, n₂, -⟩ :=
          F64.mul_double (by decide) (by decide) (by decide) he wi
        have hfin := F64.two_mul_fin (by decide) (by decide) hc (F64.roundMag_spacing _ _)
        refine ⟨rfl, rfl, ?_⟩
        simp only [d₁, d₂, m₁, m₂, n₁, n₂, hfin]
        simp [F64.eq]

theorem estimateCO2_double_witness :
    F64.valid (F64.ofRat 3600 1) = true ∧ F64.moderate (F64.ofRat 3600 1) = true ∧
    F64.moderate (resolvePower none) = true ∧ F64.moderate (resolveIntensity none) = true ∧
    F64.eq (EstimateCO2 (F64.mul (F64.ofRat 2 1) (F64.ofRat 3600 1)) none).1
      (F64.mul (F64.ofRat 2 1) (EstimateCO2 (F64.ofRat 3600 1) none).1) = true :=
  ⟨by decide!, by decide!, by decide!, by decide!,
    (estimateCO2_double _ none (by decide!) (by decide!) (by decide!) (by decide!)).2.2⟩

/-! ## The two calls of `main` -/

/-- Claim C10: the two calls of `main` give the documented values:
`EstimateCO2(3600, nil)` succeeds with exactly `23.75` and
`EstimateCO2(3600, &Config{0.08, 300.0})` succeeds with exactly `24`, so
`main` prints the two estimates and reaches neither error branch. -/
theorem main_demo_values :
    EstimateCO2 (F64.ofRat 3600 1) none = (F64.ofRat 2375 100, none) ∧
    EstimateCO2 (F64.ofRat 3600 1)
        (some { CPUPowerKW := F64.ofRat 8 100, CarbonIntensity := F64.ofRat 300 1 })
      = (F64.ofRat 24 1, none) ∧
    main = [Line.estimate (F64.ofRat 2375 100), Line.estimateCustom (F64.ofRat 24 1)] ∧
    F64.ofRat 2375 100 = F64.fin false (95 * 2 ^ 1072) ∧
    F64.ofRat 24 1 = F64.fin false (24 * 2 ^ 1074) := by
  refine ⟨by decide!, by decide!, by decide!, by decide!, by decide!⟩

/-! ## Dependence on the config through the resolved parameters only -/

theorem F64.eq_of_eq_of_pos (x y : F64) (hx : F64.gt x F64.zero = true)
    (hy : F64.gt y F64.zero = true) (h : F64.eq x y = true) : x = y := by
  rcases x with _ | s | ⟨s, a⟩ <;> rcases y with _ | t | ⟨t, b⟩ <;>
    (try cases s) <;> (try cases t) <;>
    simp [F64.gt, F64.lt, F64.zero, F64.toInt, F64.eq] at hx hy h ⊢
  all_goals omega

theorem estimateCO2_congr_resolved (cpuSeconds : F64) (c₁ c₂ : Option Config)
    (hp : F64.eq (resolvePower c₁) (resolvePower c₂) = true)
    (hi : F64.eq (resolveIntensity c₁) (resolveIntensity c₂) = true) :
    EstimateCO2 cpuSeconds c₁ = EstimateCO2 cpuSeconds c₂ := by
  have ep := F64.eq_of_eq_of_pos _ _ (resolvePower_pos c₁) (resolvePower_pos c₂) hp
  have ei := F64.eq_of_eq_of_pos _ _ (resolveIntensity_pos c₁) (resolveIntensity_pos c₂) hi
  unfold EstimateCO2
  rw [ep, ei]

/-- Claim C11: `EstimateCO2` depends on the config only through the CPU power
and the carbon intensity it resolves to: for every `cpuSeconds` and any two
configs (either possibly nil) whose resolved powers are `==` and whose resolved
intensities are `==`, the two calls return the same value and the same error.
In particular nil and `&Config{0.05, 475.0}` agree, and `&Config{-1, 300}` and
`&Config{0, 300}` agree, for every `cpuSeconds`. -/
theorem estimateCO2_depends_on_resolved :
    (∀ (cpuSeconds : F64) (c₁ c₂ : Option Config),
      F64.eq (resolvePower c₁) (resolvePower c₂) = true →
      F64.eq (resolveIntensity c₁) (resolveIntensity c₂) = true →
      EstimateCO2 cpuSeconds c₁ = EstimateCO2 cpuSeconds c₂) ∧
    (∀ cpuSeconds : F64,
      EstimateCO2 cpuSeconds none
        = EstimateCO2 cpuSeconds (some (Config.mk (F64.ofRat 5 100) (F64.ofRat 475 1)))) ∧
    (∀ cpuSeconds : F64,
      EstimateCO2 cpuSeconds (some (Config.mk (F64.fin true F64.scale) (F64.ofRat 300 1)))
        = EstimateCO2 cpuSeconds (some (Config.mk (F64.zero) (F64.ofRat 300 1)))) := by
  refine ⟨estimateCO2_congr_resolved, ?_, ?_⟩
  · intro t
    exact estimateCO2_congr_resolved t _ _ (by decide!) (by decide!)
  · intro t
    exact estimateCO2_congr_resolved t _ _ (by decide!) (by decide!)

theorem estimateCO2_depends_on_resolved_witness :
    F64.eq (resolvePower (some (Config.mk (F64.inf true) (F64.ofRat 300 1))))
      (resolvePower (some (Config.mk F64.nan (F64.ofRat 300 1)))) = true ∧
    F64.eq (resolveIntensity (some (Config.mk (F64.inf true) (F64.ofRat 300 1))))
      (resolveIntensity (some (Config.mk F64.nan (F64.ofRat 300 1)))) = true ∧
    EstimateCO2 (F64.ofRat 1800 1) (some (Config.mk (F64.inf true) (F64.ofRat 300 1)))
      = EstimateCO2 (F64.ofRat 1800 1) (some (Config.mk F64.nan (F64.ofRat 300 1))) :=
  ⟨by decide!, by decide!,
    estimateCO2_depends_on_resolved.1 _ _ _ (by decide!) (by decide!)⟩

/-! ## Accumulation of rounding errors -/

theorem F64.one_sub_unitRoundoff_nonneg : 0 ≤ 1 - F64.unitRoundoff := by
  unfold F64.unitRoundoff
  norm_num

theorem F64.one_sub_unitRoundoff_le_one : 1 - F64.unitRoundoff ≤ 1 := by
  unfold F64.unitRoundoff
  norm_num

theorem F64.one_le_one_add_unitRoundoff : 1 ≤ 1 + F64.unitRoundoff := by
  unfold F64.unitRoundoff
  norm_num

theorem F64.near_refl (X : ℚ) : F64.Near 0 X X := by
  simp [F64.Near]

theorem F64.near_step {k : Nat} {X x v : ℚ} (h : F64.Near k X x) (hv : F64.Near 1 x v) :
    F64.Near (k + 1) X v := by
  have h0 := F64.one_sub_unitRoundoff_nonneg
  have h1 : 0 ≤ 1 + F64.unitRoundoff := le_trans zero_le_one F64.one_le_one_add_unitRoundoff
  obtain ⟨hl, hu⟩ := h
  obtain ⟨vl, vu⟩ := hv
  rw [pow_one] at vl vu
  constructor
  · calc X * (1 - F64.unitRoundoff) ^ (k + 1)
        = X * (1 - F64.unitRoundoff) ^ k * (1 - F64.unitRoundoff) := by ring
      _ ≤ x * (1 - F64.unitRoundoff) := mul_le_mul_of_nonneg_right hl h0
      _ ≤ v := vl
  · calc v ≤ x * (1 + F64.unitRoundoff) := vu
      _ ≤ X * (1 + F64.unitRoundoff) ^ k * (1 + F64.unitRoundoff) :=
          mul_le_mul_of_nonneg_right hu h1
      _ = X * (1 + F64.unitRoundoff) ^ (k + 1) := by ring

theorem F64.near_mul {j k : Nat} {X Y x y : ℚ} (hx : F64.Near j X x) (hy : F64.Near k Y y)
    (hX : 0 ≤ X) (hY : 0 ≤ Y) : F64.Near (j + k) (X * Y) (x * y) := by
  have h0 := F64.one_sub_unitRoundoff_nonneg
  obtain ⟨xl, xu⟩ := hx
  obtain ⟨yl, yu⟩ := hy
  have a0 : 0 ≤ X * (1 - F64.unitRoundoff) ^ j := mul_nonneg hX (pow_nonneg h0 j)
  have b0 : 0 ≤ Y * (1 - F64.unitRoundoff) ^ k := mul_nonneg hY (pow_nonneg h0 k)
  have x0 : 0 ≤ x := le_trans a0 xl
  have y0 : 0 ≤ y := le_trans b0 yl
  constructor
  · calc X * Y * (1 - F64.unitRoundoff) ^ (j + k)
        = (X * (1 - F64.unitRoundoff) ^ j) * (Y * (1 - F64.unitRoundoff) ^ k) := by ring
      _ ≤ x * y := mul_le_mul xl yl b0 x0
  · calc x * y ≤ (X * (1 + F64.unitRoundoff) ^ j) * (Y * (1 + F64.unitRoundoff) ^ k) :=
          mul_le_mul xu yu y0 (le_trans x0 xu)
      _ = X * Y * (1 + F64.unitRoundoff) ^ (j + k) := by ring

theorem F64.near_add {k : Nat} {X Y x y : ℚ} (hx : F64.Near k X x) (hy : F64.Near k Y y) :
    F64.Near k (X + Y) (x + y) := by
  obtain ⟨xl, xu⟩ := hx
  obtain ⟨yl, yu⟩ := hy
  constructor
  · rw [add_mul]
    exact add_le_add xl yl
  · rw [add_mul]
    exact add_le_add xu yu

theorem F64.near_div {k : Nat} {X x : ℚ} (c : ℚ) (hc : 0 < c) (hx : F64.Near k X x) :
    F64.Near k (X / c) (x / c) := by
  obtain ⟨xl, xu⟩ := hx
  constructor
  · calc X / c * (1 - F64.unitRoundoff) ^ k = X * (1 - F64.unitRoundoff) ^ k / c := by ring
      _ ≤ x / c := div_le_div_of_nonneg_right xl (le_of_lt hc)
  · calc x / c ≤ X * (1 + F64.unitRoundoff) ^ k / c :=
          div_le_div_of_nonneg_right xu (le_of_lt hc)
      _ = X / c * (1 + F64.unitRoundoff) ^ k := by ring

theorem F64.near_mono {j k : Nat} {X x : ℚ} (hjk : j ≤ k) (hX : 0 ≤ X) (hx : F64.Near j X x) :
    F64.Near k X x := by
  obtain ⟨xl, xu⟩ := hx
  constructor
  · exact le_trans (mul_le_mul_of_nonneg_left
      (pow_le_pow_of_le_one F64.one_sub_unitRoundoff_nonneg F64.one_sub_unitRoundoff_le_one hjk)
      hX) xl
  · exact le_trans xu (mul_le_mul_of_nonneg_left
      (pow_le_pow_right₀ F64.one_le_one_add_unitRoundoff hjk) hX)

/-- Two values within four roundings of the same quantity differ by at most
`2^-49` of either. -/
theorem F64.near_close {X L R : ℚ} (hX : 0 ≤ X) (hL : F64.Near 4 X L) (hR : F64.Near 4 X R) :
    |L - R| ≤ L / 2 ^ 49 := by
  obtain ⟨ll, lu⟩ := hL
  obtain ⟨rl, ru⟩ := hR
  have key : (1 + F64.unitRoundoff) ^ 4 - (1 - F64.unitRoundoff) ^ 4
      ≤ (1 - F64.unitRoundoff) ^ 4 / 2 ^ 49 := by
    unfold F64.unitRoundoff
    norm_num
  have hgap : X * ((1 + F64.unitRoundoff) ^ 4 - (1 - F64.unitRoundoff) ^ 4)
      ≤ X * ((1 - F64.unitRoundoff) ^ 4 / 2 ^ 49) := mul_le_mul_of_nonneg_left key hX
  have hl : X * ((1 - F64.unitRoundoff) ^ 4 / 2 ^ 49) ≤ L / 2 ^ 49 := by
    rw [← mul_div_assoc]
    exact div_le_div_of_nonneg_right ll (by positivity)
  rw [abs_le]
  constructor <;> linarith

/-! ## Relative error of one rounding -/

theorem F64.roundNE_err (p Q : Nat) (hQ : 0 < Q) :
    2 * (F64.roundNE p Q * Q) ≤ 2 * p + Q ∧ 2 * p ≤ 2 * (F64.roundNE p Q * Q) + Q := by
  have hd := Nat.div_add_mod' p Q
  have hr := Nat.mod_lt p hQ
  have e₁ : (p / Q + 1) * Q = p / Q * Q + Q := by ring
  unfold F64.roundNE
  split_ifs <;> (try rw [e₁]) <;> generalize p / Q * Q = X at hd ⊢ <;> constructor <;> omega

/-- In the normal range a rounded magnitude is within `2^-53` of the exact
value, relatively. -/
theorem F64.roundMag_err {p q : Nat} (hq : 0 < q) (h : 2 ^ 52 ≤ p / q) :
    2 ^ 53 * (F64.roundMag p q * q) ≤ (2 ^ 53 + 1) * p ∧
    (2 ^ 53 - 1) * p ≤ 2 ^ 53 * (F64.roundMag p q * q) := by
  obtain ⟨h1, h2⟩ := F64.roundNE_err p (q * 2 ^ F64.ulpExp (p / q))
    (Nat.mul_pos hq (Nat.two_pow_pos _))
  have hf : 2 ^ 52 * 2 ^ F64.ulpExp (p / q) ≤ p / q := by
    rcases Nat.eq_zero_or_pos (F64.ulpExp (p / q)) with h0 | hpos
    · rw [h0]
      simpa using h
    · exact (Nat.le_div_iff_mul_le (Nat.two_pow_pos _)).mp (F64.le_div_ulp _ hpos)
  have hbig : 2 ^ 52 * (q * 2 ^ F64.ulpExp (p / q)) ≤ p :=
    calc 2 ^ 52 * (q * 2 ^ F64.ulpExp (p / q))
        = (2 ^ 52 * 2 ^ F64.ulpExp (p / q)) * q := by ring
      _ ≤ (p / q) * q := Nat.mul_le_mul_right _ hf
      _ ≤ p := Nat.div_mul_le_self p q
  unfold F64.roundMag
  have e : F64.roundNE p (q * 2 ^ F64.ulpExp (p / q)) * 2 ^ F64.ulpExp (p / q) * q
      = F64.roundNE p (q * 2 ^ F64.ulpExp (p / q)) * (q * 2 ^ F64.ulpExp (p / q)) := by ring
  rw [e]
  constructor <;> omega

/-- The same bound over the rationals. -/
theorem F64.roundMag_near {p q : Nat} (hq : 0 < q) (h : 2 ^ 52 ≤ p / q) :
    F64.Near 1 ((p : ℚ) / (q : ℚ)) (F64.roundMag p q : ℚ) := by
  obtain ⟨h1, h2⟩ := F64.roundMag_err hq h
  have hq' : (0 : ℚ) < (q : ℚ) := by exact_mod_cast hq
  have c1 : (2 ^ 53 : ℚ) * ((F64.roundMag p q : ℚ) * q) ≤ (2 ^ 53 + 1) * (p : ℚ) := by
    exact_mod_cast h1
  have c2 : ((2 ^ 53 - 1 : ℚ)) * (p : ℚ) ≤ 2 ^ 53 * ((F64.roundMag p q : ℚ) * q) := by
    have : ((2 ^ 53 - 1 : ℕ) : ℚ) = 2 ^ 53 - 1 := by norm_num
    rw [← this]
    exact_mod_cast h2
  unfold F64.Near F64.unitRoundoff
  rw [pow_one, pow_one]
  constructor
  · rw [div_mul_eq_mul_div, div_le_iff₀ hq']
    linarith
  · rw [div_mul_eq_mul_div, le_div_iff₀ hq']
    linarith

/-! ## One operation at a time: result, range and error -/

theorem F64.scale_cast_pos : (0 : ℚ) < (F64.scale : ℚ) := by
  exact_mod_cast F64.scale_pos

theorem F64.val_nonneg (n : Nat) : 0 ≤ F64.val n := by
  unfold F64.val
  exact div_nonneg (Nat.cast_nonneg n) (le_of_lt F64.scale_cast_pos)

/-- Away from underflow and overflow, rounding returns a finite value in the
same range, within one rounding of the exact value. -/
theorem F64.round_near (s : Bool) {p q k m : Nat} (hq : 0 < q) (hlo : 2 ^ k ≤ p / q)
    (hk : 52 ≤ k) (hhi : p ≤ 2 ^ m * q) (hm : m < 2098) :
    F64.round s p q = F64.fin s (F64.roundMag p q) ∧
    (2 ^ k ≤ F64.roundMag p q ∧ F64.roundMag p q ≤ 2 ^ m) ∧
    F64.Near 1 ((p : ℚ) / (q : ℚ)) (F64.roundMag p q : ℚ) := by
  have hu : F64.roundMag p q ≤ 2 ^ m := F64.roundMag_le_two_pow hq hhi
  have ho := F64.two_pow_lt_overflowAt hm
  have h52 : 2 ^ 52 ≤ p / q := le_trans (Nat.pow_le_pow_right (by decide) hk) hlo
  refine ⟨?_, ⟨F64.two_pow_le_roundMag hq hlo, hu⟩, F64.roundMag_near hq h52⟩
  unfold F64.round
  rw [if_pos (by omega)]

theorem F64.div_3600_near {j l : Nat} (k m a : Nat) (hj : j = k + 12) (hl : l = m + 11)
    (hk : 52 ≤ k) (hm : m < 2098) (ha : 2 ^ j ≤ a ∧ a ≤ 2 ^ l) :
    ∃ h, F64.div (F64.fin false a) (F64.ofRat 3600 1) = F64.fin false h ∧
      (2 ^ k ≤ h ∧ h ≤ 2 ^ m) ∧ F64.Near 1 (F64.val a / 3600) (F64.val h) := by
  subst hj hl
  obtain ⟨hlo, hhi⟩ := ha
  have hS := F64.scale_pos
  have hS' := F64.scale_cast_pos
  have hq : 0 < 3600 * F64.scale := Nat.mul_pos (by decide) hS
  have hf : 2 ^ k ≤ a * F64.scale / (3600 * F64.scale) := by
    rw [Nat.mul_div_mul_right _ _ hS, Nat.le_div_iff_mul_le (by decide)]
    rw [pow_add] at hlo
    omega
  have hu : a * F64.scale ≤ 2 ^ m * (3600 * F64.scale) := by
    rw [← Nat.mul_assoc]
    apply Nat.mul_le_mul_right
    rw [pow_add] at hhi
    omega
  obtain ⟨e, hb, hn⟩ := F64.round_near false hq hf hk hu hm
  refine ⟨F64.roundMag (a * F64.scale) (3600 * F64.scale), ?_, hb, ?_⟩
  · rw [F64.ofRat_3600]
    simp only [F64.div, if_neg (Nat.ne_of_gt hq), Bool.xor_false]
    exact e
  · have hn' := F64.near_div (F64.scale : ℚ) hS' hn
    have ex : ((a * F64.scale : ℕ) : ℚ) / ((3600 * F64.scale : ℕ) : ℚ) / (F64.scale : ℚ)
        = F64.val a / 3600 := by
      unfold F64.val
      push_cast
      field_simp
      ring
    rw [ex] at hn'
    exact hn'

theorem F64.mul_near {k₁ m₁ k₂ m₂ x y : Nat} (hk : 1074 + 52 ≤ k₁ + k₂)
    (hm : m₁ + m₂ - 1074 < 2098) (hm0 : 1074 ≤ m₁ + m₂)
    (hx : 2 ^ k₁ ≤ x ∧ x ≤ 2 ^ m₁) (hy : 2 ^ k₂ ≤ y ∧ y ≤ 2 ^ m₂) :
    ∃ z, F64.mul (F64.fin false x) (F64.fin false y) = F64.fin false z ∧
      (2 ^ (k₁ + k₂ - 1074) ≤ z ∧ z ≤ 2 ^ (m₁ + m₂ - 1074)) ∧
      F64.Near 1 (F64.val x * F64.val y) (F64.val z) := by
  have hS := F64.scale_pos
  have hS' := F64.scale_cast_pos
  have hf : 2 ^ (k₁ + k₂ - 1074) ≤ x * y / F64.scale := by
    rw [Nat.le_div_iff_mul_le hS, F64.scale_eq, ← pow_add,
      show k₁ + k₂ - 1074 + 1074 = k₁ + k₂ by omega, pow_add]
    exact Nat.mul_le_mul hx.1 hy.1
  have hu : x * y ≤ 2 ^ (m₁ + m₂ - 1074) * F64.scale := by
    rw [F64.scale_eq, ← pow_add, show m₁ + m₂ - 1074 + 1074 = m₁ + m₂ by omega, pow_add]
    exact Nat.mul_le_mul hx.2 hy.2
  obtain ⟨e, hb, hn⟩ := F64.round_near false hS hf (by omega) hu hm
  refine ⟨F64.roundMag (x * y) F64.scale, ?_, hb, ?_⟩
  · simp only [F64.mul, Bool.xor_false]
    exact e
  · have hn' := F64.near_div (F64.scale : ℚ) hS' hn
    have ex : ((x * y : ℕ) : ℚ) / (F64.scale : ℚ) / (F64.scale : ℚ)
        = F64.val x * F64.val y := by
      unfold F64.val
      push_cast
      field_simp
    rw [ex] at hn'
    exact hn'

theorem F64.add_near {k m x y : Nat} (hk : 51 ≤ k) (hm : m + 1 < 2098)
    (hx : 2 ^ k ≤ x ∧ x ≤ 2 ^ m) (hy : 2 ^ k ≤ y ∧ y ≤ 2 ^ m) :
    ∃ z, F64.add (F64.fin false x) (F64.fin false y) = F64.fin false z ∧
      (2 ^ (k + 1) ≤ z ∧ z ≤ 2 ^ (m + 1)) ∧
      F64.Near 1 (F64.val x + F64.val y) (F64.val z) := by
  have hS' := F64.scale_cast_pos
  have hpos : 0 < 2 ^ k := Nat.two_pow_pos k
  have hf : 2 ^ (k + 1) ≤ (x + y) / 1 := by
    rw [Nat.div_one, pow_succ]
    omega
  have hu : x + y ≤ 2 ^ (m + 1) * 1 := by
    rw [Nat.mul_one, pow_succ]
    omega
  obtain ⟨e, hb, hn⟩ := F64.round_near false Nat.one_pos hf (by omega) hu hm
  refine ⟨F64.roundMag (x + y) 1, ?_, hb, ?_⟩
  · have hne : ((x : ℤ) + (y : ℤ)) ≠ 0 := by omega
    have hnn : ¬ ((x : ℤ) + (y : ℤ) < 0) := by omega
    have hab : ((x : ℤ) + (y : ℤ)).natAbs = x + y := by omega
    simp only [F64.add, F64.toInt, Bool.false_eq_true, if_false, if_neg hne, hab,
      decide_eq_false hnn]
    exact e
  · have hn' := F64.near_div (F64.scale : ℚ) hS' hn
    have ex : ((x + y : ℕ) : ℚ) / ((1 : ℕ) : ℚ) / (F64.scale : ℚ)
        = F64.val x + F64.val y := by
      unfold F64.val
      push_cast
      field_simp
    rw [ex] at hn'
    exact hn'

theorem F64.near_trans {j k : Nat} {X x v : ℚ} (h : F64.Near j X x) (hv : F64.Near k x v) :
    F64.Near (j + k) X v := by
  have h0 := F64.one_sub_unitRoundoff_nonneg
  have h1 : 0 ≤ 1 + F64.unitRoundoff := le_trans zero_le_one F64.one_le_one_add_unitRoundoff
  obtain ⟨hl, hu⟩ := h
  obtain ⟨vl, vu⟩ := hv
  constructor
  · calc X * (1 - F64.unitRoundoff) ^ (j + k)
        = X * (1 - F64.unitRoundoff) ^ j * (1 - F64.unitRoundoff) ^ k := by ring
      _ ≤ x * (1 - F64.unitRoundoff) ^ k := mul_le_mul_of_nonneg_right hl (pow_nonneg h0 k)
      _ ≤ v := vl
  · calc v ≤ x * (1 + F64.unitRoundoff) ^ k := vu
      _ ≤ X * (1 + F64.unitRoundoff) ^ j * (1 + F64.unitRoundoff) ^ k :=
          mul_le_mul_of_nonneg_right hu (pow_nonneg h1 k)
      _ = X * (1 + F64.unitRoundoff) ^ (j + k) := by ring

/-- The three operations of `EstimateCO2` on finite operands away from
underflow and overflow: the result is finite, in range, and within three
roundings of the exact product `power * (seconds / 3600) * intensity`. -/
theorem F64.estimate_near {j l : Nat} (k m a p i : Nat) (hj : j = k + 12) (hl : l = m + 11)
    (hk : 652 ≤ k) (hm : m < 1498) (ha : 2 ^ j ≤ a ∧ a ≤ 2 ^ l)
    (hp : 2 ^ 774 ≤ p ∧ p ≤ 2 ^ 1374) (hi : 2 ^ 774 ≤ i ∧ i ≤ 2 ^ 1374) :
    ∃ c, F64.mul (F64.mul (F64.fin false p) (F64.div (F64.fin false a) (F64.ofRat 3600 1)))
          (F64.fin false i) = F64.fin false c ∧
      (2 ^ (774 + k - 1074 + 774 - 1074) ≤ c ∧ c ≤ 2 ^ (1374 + m - 1074 + 1374 - 1074)) ∧
      F64.Near 3 (F64.val p * (F64.val a / 3600) * F64.val i) (F64.val c) := by
  obtain ⟨h, eh, bh, nh⟩ := F64.div_3600_near k m a hj hl (by omega) (by omega) ha
  obtain ⟨e, ee, be, ne⟩ := F64.mul_near (by omega) (by omega) (by omega) hp bh
  obtain ⟨c, ec, bc, nc⟩ := F64.mul_near (by omega) (by omega) (by omega) be hi
  refine ⟨c, ?_, bc, ?_⟩
  · rw [eh, ee, ec]
  · have n1 : F64.Near 1 (F64.val p * (F64.val a / 3600)) (F64.val p * F64.val h) :=
      F64.near_mul (F64.near_refl _) nh (F64.val_nonneg p)
        (div_nonneg (F64.val_nonneg a) (by norm_num))
    have n2 : F64.Near 2 (F64.val p * (F64.val a / 3600)) (F64.val e) := F64.near_trans n1 ne
    have n3 : F64.Near 2 (F64.val p * (F64.val a / 3600) * F64.val i) (F64.val e * F64.val i) :=
      F64.near_mul n2 (F64.near_refl _)
        (mul_nonneg (F64.val_nonneg p) (div_nonneg (F64.val_nonneg a) (by norm_num)))
        (F64.val_nonneg i)
    exact F64.near_trans n3 nc

theorem F64.exists_of_within {lo hi : Nat} (x : F64) (h : F64.Within lo hi x) :
    ∃ n, x = F64.fin false n ∧ (lo ≤ n ∧ n ≤ hi) := by
  rcases x with _ | s | ⟨s, n⟩
  · simp [F64.Within] at h
  · simp [F64.Within] at h
  · cases s with
    | true => simp [F64.Within] at h
    | false => exact ⟨n, rfl, h⟩

theorem F64.exists_of_moderate (x : F64) (h : F64.moderate x = true) :
    ∃ n, x = F64.fin false n ∧ (2 ^ 774 ≤ n ∧ n ≤ 2 ^ 1374) :=
  F64.exists_of_within x (F64.within_of_moderate x h)

theorem F64.gt_zero_of_two_pow_le {k n : Nat} (h : 2 ^ k ≤ n) :
    F64.gt (F64.fin false n) F64.zero = true :=
  F64.gt_zero_of_atLeast _ (show F64.AtLeast (2 ^ k) (F64.fin false n) from h)

/-! ## Additivity of the estimate in `cpuSeconds` -/

/-- Claim C12, as stated, fails: for `a = 3600`, `b = 1800` and a nil config
all three calls succeed and `a + b` is exactly `5400`, but
`EstimateCO2(a + b, nil)` is `35.62500000000001` while
`EstimateCO2(a, nil) + EstimateCO2(b, nil)` is `23.75 + 11.875 = 35.625`. -/
theorem estimateCO2_not_additive :
    F64.gt (F64.ofRat 3600 1) F64.zero = true ∧ F64.gt (F64.ofRat 1800 1) F64.zero = true ∧
    F64.add (F64.ofRat 3600 1) (F64.ofRat 1800 1) = F64.ofRat 5400 1 ∧
    F64.add (EstimateCO2 (F64.ofRat 3600 1) none).1 (EstimateCO2 (F64.ofRat 1800 1) none).1
      = F64.ofRat 35625 1000 ∧
    ¬ (F64.eq (EstimateCO2 (F64.add (F64.ofRat 3600 1) (F64.ofRat 1800 1)) none).1
        (F64.add (EstimateCO2 (F64.ofRat 3600 1) none).1
          (EstimateCO2 (F64.ofRat 1800 1) none).1) = true) := by
  decide!

/-- Claim C12 (amended): for every fixed config (nil or not) whose CPU power
used and carbon intensity used lie in `[2^-300, 2^300]`, and all `a`, `b` in
`[2^-300, 2^300]`, the three calls succeed with finite results and
`EstimateCO2(a + b, config)` differs from
`EstimateCO2(a, config) + EstimateCO2(b, config)` by at most `2^-49` of its own
value: additivity holds up to the rounding of the float64 operations. -/
theorem estimateCO2_additive_approx (a b : F64) (config : Option Config)
    (ha : F64.moderate a = true) (hb : F64.moderate b = true)
    (hp : F64.moderate (resolvePower config) = true)
    (hi : F64.moderate (resolveIntensity config) = true) :
    (EstimateCO2 (F64.add a b) config).2 = none ∧
    (EstimateCO2 a config).2 = none ∧ (EstimateCO2 b config).2 = none ∧
    F64.isFinite (EstimateCO2 (F64.add a b) config).1 = true ∧
    F64.isFinite (F64.add (EstimateCO2 a config).1 (EstimateCO2 b config).1) = true ∧
    |F64.toRat (EstimateCO2 (F64.add a b) config).1
        - F64.toRat (F64.add (EstimateCO2 a config).1 (EstimateCO2 b config).1)|
      ≤ F64.toRat (EstimateCO2 (F64.add a b) config).1 / 2 ^ 49 := by
  obtain ⟨x, rfl, wx⟩ := F64.exists_of_moderate a ha
  obtain ⟨y, rfl, wy⟩ := F64.exists_of_moderate b hb
  obtain ⟨p, ep, wp⟩ := F64.exists_of_moderate _ hp
  obtain ⟨i, ei, wi⟩ := F64.exists_of_moderate _ hi
  obtain ⟨z, ez, wz, nz⟩ := F64.add_near (by decide) (by decide) wx wy
  rw [ez, estimateCO2_of_gt _ _ (F64.gt_zero_of_two_pow_le wx.1),
    estimateCO2_of_gt _ _ (F64.gt_zero_of_two_pow_le wy.1),
    estimateCO2_of_gt _ _ (F64.gt_zero_of_two_pow_le wz.1), ep, ei]
  obtain ⟨cs, es, -, ns⟩ :=
    F64.estimate_near 763 1364 z p i (by decide) (by decide) (by decide) (by decide) wz wp wi
  obtain ⟨ca, ea, wa, na⟩ :=
    F64.estimate_near 762 1363 x p i (by decide) (by decide) (by decide) (by decide) wx wp wi
  obtain ⟨cb, eb, wb, nb⟩ :=
    F64.estimate_near 762 1363 y p i (by decide) (by decide) (by decide) (by decide) wy wp wi
  obtain ⟨r, er, -, nr⟩ := F64.add_near (by decide) (by decide) wa wb
  rw [es, ea, eb, er]
  refine ⟨rfl, rfl, rfl, rfl, rfl, ?_⟩
  show |F64.val cs - F64.val r| ≤ F64.val cs / 2 ^ 49
  have hpos : 0 ≤ F64.val p * ((F64.val x + F64.val y) / 3600) * F64.val i :=
    mul_nonneg (mul_nonneg (F64.val_nonneg p)
      (div_nonneg (add_nonneg (F64.val_nonneg x) (F64.val_nonneg y)) (by norm_num)))
      (F64.val_nonneg i)
  have s1 : F64.Near 1 (F64.val p * ((F64.val x + F64.val y) / 3600) * F64.val i)
      (F64.val p * (F64.val z / 3600) * F64.val i) :=
    F64.near_mul
      (F64.near_mul (F64.near_refl (F64.val p)) (F64.near_div 3600 (by norm_num) nz)
        (F64.val_nonneg p)
        (div_nonneg (add_nonneg (F64.val_nonneg x) (F64.val_nonneg y)) (by norm_num)))
      (F64.near_refl (F64.val i))
      (mul_nonneg (F64.val_nonneg p)
        (div_nonneg (add_nonneg (F64.val_nonneg x) (F64.val_nonneg y)) (by norm_num)))
      (F64.val_nonneg i)
  have hL : F64.Near 4 (F64.val p * ((F64.val x + F64.val y) / 3600) * F64.val i)
      (F64.val cs) := F64.near_trans s1 ns
  have s2 := F64.near_add na nb
  have e2 : F64.val p * (F64.val x / 3600) * F64.val i
      + F64.val p * (F64.val y / 3600) * F64.val i
      = F64.val p * ((F64.val x + F64.val y) / 3600) * F64.val i := by ring
  rw [e2] at s2
  have hR : F64.Near 4 (F64.val p * ((F64.val x + F64.val y) / 3600) * F64.val i)
      (F64.val r) := F64.near_trans s2 nr
  exact F64.near_close hpos hL hR

theorem estimateCO2_additive_approx_witness :
    F64.moderate (F64.ofRat 3600 1) = true ∧ F64.moderate (F64.ofRat 1800 1) = true ∧
    F64.moderate (resolvePower none) = true ∧ F64.moderate (resolveIntensity none) = true ∧
    |F64.toRat (EstimateCO2 (F64.add (F64.ofRat 3600 1) (F64.ofRat 1800 1)) none).1
        - F64.toRat (F64.add (EstimateCO2 (F64.ofRat 3600 1) none).1
            (EstimateCO2 (F64.ofRat 1800 1) none).1)|
      ≤ F64.toRat (EstimateCO2 (F64.add (F64.ofRat 3600 1) (F64.ofRat 1800 1)) none).1
          / 2 ^ 49 :=
  ⟨by decide!, by decide!, by decide!, by decide!,
    (estimateCO2_additive_approx _ _ none (by decide!) (by decide!) (by decide!)
      (by decide!)).2.2.2.2.2⟩

/-! ## Monotonicity in the overrides -/

theorem F64.mul_nan_right (x : F64) : F64.mul x F64.nan = F64.nan := by
  cases x <;> rfl

theorem F64.weakLE_mul_right_nonneg (x y c : F64) (h : F64.WeakLE x y)
    (hc : F64.signbit c = false) : F64.WeakLE (F64.mul x c) (F64.mul y c) := by
  rcases h with rfl | rfl | h
  · exact Or.inl (by cases c <;> rfl)
  · exact Or.inr (Or.inl (by cases x <;> cases c <;> rfl))
  · rcases c with _ | u | ⟨u, i⟩
    · exact Or.inl (F64.mul_nan_right x)
    · cases u with
      | true => simp [F64.signbit] at hc
      | false =>
        rcases x with _ | s | ⟨s, a⟩ <;> rcases y with _ | t | ⟨t, b⟩ <;>
          (try cases s) <;> (try cases t) <;>
          simp only [F64.OrdNonneg] at h <;>
          simp only [F64.mul, Bool.xor_false, F64.WeakLE] <;>
          (try split_ifs) <;> simp [F64.OrdNonneg]
    · cases u with
      | true => simp [F64.signbit] at hc
      | false =>
        rcases x with _ | s | ⟨s, a⟩ <;> rcases y with _ | t | ⟨t, b⟩ <;>
          (try cases s) <;> (try cases t) <;>
          simp only [F64.OrdNonneg] at h <;>
          simp only [F64.mul, Bool.xor_false, F64.WeakLE]
        · split_ifs
          · exact Or.inl rfl
          · exact Or.inr (Or.inr trivial)
        · split_ifs
          · exact Or.inr (Or.inl rfl)
          · exact Or.inr (Or.inr (F64.ordNonneg_round_inf _ _))
        · exact Or.inr (Or.inr (F64.ordNonneg_round _ (Nat.mul_le_mul_right _ h)))

theorem F64.weakLE_mul_left_nonneg (c x y : F64) (h : F64.WeakLE x y)
    (hc : F64.signbit c = false) : F64.WeakLE (F64.mul c x) (F64.mul c y) := by
  rw [F64.mul_comm c x, F64.mul_comm c y]
  exact F64.weakLE_mul_right_nonneg x y c h hc

theorem F64.signbit_ofRat (p q : Nat) : F64.signbit (F64.ofRat p q) = false :=
  F64.signbit_round false _ _

theorem resolvePower_some_of_gt (P I : F64) (h : F64.gt P F64.zero = true) :
    resolvePower (some (Config.mk P I)) = P := by
  simp only [resolvePower]
  rw [if_pos h]

theorem resolveIntensity_some_of_gt (P I : F64) (h : F64.gt I F64.zero = true) :
    resolveIntensity (some (Config.mk P I)) = I := by
  simp only [resolveIntensity]
  rw [if_pos h]

theorem resolvePower_some_irrel (P I I' : F64) :
    resolvePower (some (Config.mk P I)) = resolvePower (some (Config.mk P I')) := rfl

theorem resolveIntensity_some_irrel (P P' I : F64) :
    resolveIntensity (some (Config.mk P I)) = resolveIntensity (some (Config.mk P' I)) := rfl

/-- Raising a positive power override never lowers the estimate. -/
theorem estimateCO2_mono_power (t P P' I : F64) (ht : F64.gt t F64.zero = true)
    (hP : F64.gt P F64.zero = true) (hPP : F64.lt P P' = true) :
    (EstimateCO2 t (some (Config.mk P I))).2 = none ∧
    (EstimateCO2 t (some (Config.mk P' I))).2 = none ∧
    F64.lt (EstimateCO2 t (some (Config.mk P' I))).1 (EstimateCO2 t (some (Config.mk P I))).1
      = false := by
  have hord := F64.ordNonneg_of_lt P P' hP hPP
  have hP' := F64.gt_zero_of_ordNonneg P P' hP hord
  rw [estimateCO2_of_gt _ _ ht, estimateCO2_of_gt _ _ ht, resolvePower_some_of_gt P I hP,
    resolvePower_some_of_gt P' I hP', resolveIntensity_some_irrel P P' I]
  have hth : F64.signbit (F64.div t (F64.ofRat 3600 1)) = false :=
    F64.signbit_div _ _ (F64.signbit_of_gt_zero _ ht) (F64.signbit_ofRat _ _)
  have h1 := F64.weakLE_mul_right_nonneg P P' _ (Or.inr (Or.inr hord)) hth
  have h2 := F64.weakLE_mul_right _ _ _ h1 (resolveIntensity_pos (some (Config.mk P' I)))
  exact ⟨rfl, rfl, F64.not_lt_of_weakLE _ _ h2⟩

/-- Raising a positive intensity override never lowers the estimate. -/
theorem estimateCO2_mono_intensity (t P I I' : F64) (ht : F64.gt t F64.zero = true)
    (hI : F64.gt I F64.zero = true) (hII : F64.lt I I' = true) :
    (EstimateCO2 t (some (Config.mk P I))).2 = none ∧
    (EstimateCO2 t (some (Config.mk P I'))).2 = none ∧
    F64.lt (EstimateCO2 t (some (Config.mk P I'))).1 (EstimateCO2 t (some (Config.mk P I))).1
      = false := by
  have hord := F64.ordNonneg_of_lt I I' hI hII
  have hI' := F64.gt_zero_of_ordNonneg I I' hI hord
  rw [estimateCO2_of_gt _ _ ht, estimateCO2_of_gt _ _ ht, resolveIntensity_some_of_gt P I hI,
    resolveIntensity_some_of_gt P I' hI', resolvePower_some_irrel P I I']
  have hth : F64.signbit (F64.div t (F64.ofRat 3600 1)) = false :=
    F64.signbit_div _ _ (F64.signbit_of_gt_zero _ ht) (F64.signbit_ofRat _ _)
  have he : F64.signbit (F64.mul (resolvePower (some (Config.mk P I')))
      (F64.div t (F64.ofRat 3600 1))) = false :=
    F64.signbit_mul _ _ (F64.signbit_of_gt_zero _ (resolvePower_pos _)) hth
  have h1 := F64.weakLE_mul_left_nonneg _ I I' (Or.inr (Or.inr hord)) he
  exact ⟨rfl, rfl, F64.not_lt_of_weakLE _ _ h1⟩

/-! ## Proportionality in the overrides -/

theorem F64.twoPow_neg_100 : F64.twoPow (-100) = F64.fin false (2 ^ 974) := by decide!

theorem F64.twoPow_100 : F64.twoPow 100 = F64.fin false (2 ^ 1174) := by decide!

theorem F64.exists_of_moderate100 (x : F64) (h : F64.moderate100 x = true) :
    ∃ n, x = F64.fin false n ∧ (2 ^ 974 ≤ n ∧ n ≤ 2 ^ 1174) := by
  unfold F64.moderate100 at h
  rw [Bool.and_eq_true, F64.twoPow_neg_100, F64.twoPow_100] at h
  exact F64.exists_of_within x (F64.within_of_le x h.1 h.2)

theorem F64.band_widen {j k l m n : Nat} (hj : j ≤ k) (hm : l ≤ m)
    (h : 2 ^ k ≤ n ∧ n ≤ 2 ^ l) : 2 ^ j ≤ n ∧ n ≤ 2 ^ m :=
  ⟨le_trans (Nat.pow_le_pow_right (by decide) hj) h.1,
    le_trans h.2 (Nat.pow_le_pow_right (by decide) hm)⟩

/-- Multiplying the power override by `k` multiplies the estimate by `k`, up
to rounding. -/
theorem estimateCO2_scale_power_approx (t k P I : F64) (ht : F64.moderate t = true)
    (hk : F64.moderate100 k = true) (hP : F64.moderate100 P = true)
    (hI : F64.moderate100 I = true) :
    (EstimateCO2 t (some (Config.mk (F64.mul k P) I))).2 = none ∧
    (EstimateCO2 t (some (Config.mk P I))).2 = none ∧
    F64.isFinite (EstimateCO2 t (some (Config.mk (F64.mul k P) I))).1 = true ∧
    F64.isFinite (F64.mul k (EstimateCO2 t (some (Config.mk P I))).1) = true ∧
    |F64.toRat (EstimateCO2 t (some (Config.mk (F64.mul k P) I))).1
        - F64.toRat (F64.mul k (EstimateCO2 t (some (Config.mk P I))).1)|
      ≤ F64.toRat (EstimateCO2 t (some (Config.mk (F64.mul k P) I))).1 / 2 ^ 49 := by
  obtain ⟨x, rfl, wx⟩ := F64.exists_of_moderate t ht
  obtain ⟨κ, rfl, wk⟩ := F64.exists_of_moderate100 k hk
  obtain ⟨p, rfl, wp⟩ := F64.exists_of_moderate100 P hP
  obtain ⟨i, rfl, wi⟩ := F64.exists_of_moderate100 I hI
  obtain ⟨q, eq, wq, nq⟩ := F64.mul_near (by decide) (by decide) (by decide) wk wp
  have wp' := F64.band_widen (j := 774) (m := 1374) (by decide) (by decide) wp
  have wi' := F64.band_widen (j := 774) (m := 1374) (by decide) (by decide) wi
  have wq' := F64.band_widen (j := 774) (m := 1374) (by decide) (by decide) wq
  have gx := F64.gt_zero_of_two_pow_le wx.1
  rw [eq, estimateCO2_of_gt _ _ gx, estimateCO2_of_gt _ _ gx,
    resolvePower_some_of_gt _ _ (F64.gt_zero_of_two_pow_le wq.1),
    resolvePower_some_of_gt _ _ (F64.gt_zero_of_two_pow_le wp.1),
    resolveIntensity_some_of_gt _ _ (F64.gt_zero_of_two_pow_le wi.1),
    resolveIntensity_some_of_gt _ _ (F64.gt_zero_of_two_pow_le wi.1)]
  obtain ⟨cl, el, -, nl⟩ :=
    F64.estimate_near 762 1363 x q i (by decide) (by decide) (by decide) (by decide) wx wq' wi'
  obtain ⟨c, ec, wc, nc⟩ :=
    F64.estimate_near 762 1363 x p i (by decide) (by decide) (by decide) (by decide) wx wp' wi'
  obtain ⟨r, er, -, nr⟩ := F64.mul_near (by decide) (by decide) (by decide) wk wc
  rw [el, ec, er]
  refine ⟨rfl, rfl, rfl, rfl, ?_⟩
  show |F64.val cl - F64.val r| ≤ F64.val cl / 2 ^ 49
  have hx0 : 0 ≤ F64.val x / 3600 := div_nonneg (F64.val_nonneg x) (by norm_num)
  have hpos : 0 ≤ F64.val κ * F64.val p * (F64.val x / 3600) * F64.val i :=
    mul_nonneg (mul_nonneg (mul_nonneg (F64.val_nonneg κ) (F64.val_nonneg p)) hx0)
      (F64.val_nonneg i)
  have s1 : F64.Near 1 (F64.val κ * F64.val p * (F64.val x / 3600) * F64.val i)
      (F64.val q * (F64.val x / 3600) * F64.val i) :=
    F64.near_mul
      (F64.near_mul nq (F64.near_refl _)
        (mul_nonneg (F64.val_nonneg κ) (F64.val_nonneg p)) hx0)
      (F64.near_refl _)
      (mul_nonneg (mul_nonneg (F64.val_nonneg κ) (F64.val_nonneg p)) hx0)
      (F64.val_nonneg i)
  have hL := F64.near_trans s1 nl
  have s2 : F64.Near 3 (F64.val κ * (F64.val p * (F64.val x / 3600) * F64.val i))
      (F64.val κ * F64.val c) :=
    F64.near_mul (F64.near_refl _) nc (F64.val_nonneg κ)
      (mul_nonneg (mul_nonneg (F64.val_nonneg p) hx0) (F64.val_nonneg i))
  have e2 : F64.val κ * (F64.val p * (F64.val x / 3600) * F64.val i)
      = F64.val κ * F64.val p * (F64.val x / 3600) * F64.val i := by ring
  rw [e2] at s2
  have hR := F64.near_trans s2 nr
  exact F64.near_close hpos hL hR

/-- Multiplying the intensity override by `k` multiplies the estimate by `k`,
up to rounding. -/
theorem estimateCO2_scale_intensity_approx (t k P I : F64) (ht : F64.moderate t = true)
    (hk : F64.moderate100 k = true) (hP : F64.moderate100 P = true)
    (hI : F64.moderate100 I = true) :
    (EstimateCO2 t (some (Config.mk P (F64.mul k I)))).2 = none ∧
    (EstimateCO2 t (some (Config.mk P I))).2 = none ∧
    F64.isFinite (EstimateCO2 t (some (Config.mk P (F64.mul k I)))).1 = true ∧
    F64.isFinite (F64.mul k (EstimateCO2 t (some (Config.mk P I))).1) = true ∧
    |F64.toRat (EstimateCO2 t (some (Config.mk P (F64.mul k I)))).1
        - F64.toRat (F64.mul k (EstimateCO2 t (some (Config.mk P I))).1)|
      ≤ F64.toRat (EstimateCO2 t (some (Config.mk P (F64.mul k I)))).1 / 2 ^ 49 := by
  obtain ⟨x, rfl, wx⟩ := F64.exists_of_moderate t ht
  obtain ⟨κ, rfl, wk⟩ := F64.exists_of_moderate100 k hk
  obtain ⟨p, rfl, wp⟩ := F64.exists_of_moderate100 P hP
  obtain ⟨i, rfl, wi⟩ := F64.exists_of_moderate100 I hI
  obtain ⟨q, eq, wq, nq⟩ := F64.mul_near (by decide) (by decide) (by decide) wk wi
  have wp' := F64.band_widen (j := 774) (m := 1374) (by decide) (by decide) wp
  have wi' := F64.band_widen (j := 774) (m := 1374) (by decide) (by decide) wi
  have wq' := F64.band_widen (j := 774) (m := 1374) (by decide) (by decide) wq
  have gx := F64.gt_zero_of_two_pow_le wx.1
  rw [eq, estimateCO2_of_gt _ _ gx, estimateCO2_of_gt _ _ gx,
    resolvePower_some_of_gt _ _ (F64.gt_zero_of_two_pow_le wp.1),
    resolvePower_some_of_gt _ _ (F64.gt_zero_of_two_pow_le wp.1),
    resolveIntensity_some_of_gt _ _ (F64.gt_zero_of_two_pow_le wq.1),
    resolveIntensity_some_of_gt _ _ (F64.gt_zero_of_two_pow_le wi.1)]
  obtain ⟨cl, el, -, nl⟩ :=
    F64.estimate_near 762 1363 x p q (by decide) (by decide) (by decide) (by decide) wx wp' wq'
  obtain ⟨c, ec, wc, nc⟩ :=
    F64.estimate_near 762 1363 x p i (by decide) (by decide) (by decide) (by decide) wx wp' wi'
  obtain ⟨r, er, -, nr⟩ := F64.mul_near (by decide) (by decide) (by decide) wk wc
  rw [el, ec, er]
  refine ⟨rfl, rfl, rfl, rfl, ?_⟩
  show |F64.val cl - F64.val r| ≤ F64.val cl / 2 ^ 49
  have hx0 : 0 ≤ F64.val x / 3600 := div_nonneg (F64.val_nonneg x) (by norm_num)
  have hpos : 0 ≤ F64.val p * (F64.val x / 3600) * (F64.val κ * F64.val i) :=
    mul_nonneg (mul_nonneg (F64.val_nonneg p) hx0)
      (mul_nonneg (F64.val_nonneg κ) (F64.val_nonneg i))
  have s1 : F64.Near 1 (F64.val p * (F64.val x / 3600) * (F64.val κ * F64.val i))
      (F64.val p * (F64.val x / 3600) * F64.val q) :=
    F64.near_mul (F64.near_refl _) nq (mul_nonneg (F64.val_nonneg p) hx0)
      (mul_nonneg (F64.val_nonneg κ) (F64.val_nonneg i))
  have hL := F64.near_trans s1 nl
  have s2 : F64.Near 3 (F64.val κ * (F64.val p * (F64.val x / 3600) * F64.val i))
      (F64.val κ * F64.val c) :=
    F64.near_mul (F64.near_refl _) nc (F64.val_nonneg κ)
      (mul_nonneg (mul_nonneg (F64.val_nonneg p) hx0) (F64.val_nonneg i))
  have e2 : F64.val κ * (F64.val p * (F64.val x / 3600) * F64.val i)
      = F64.val p * (F64.val x / 3600) * (F64.val κ * F64.val i) := by ring
  rw [e2] at s2
  have hR := F64.near_trans s2 nr
  exact F64.near_close hpos hL hR

/-- Claim C13, as stated, fails on both counts.  With `cpuSeconds = 3600` and
the config `{0.05, 475.0}`, multiplying the power by `k = 3` gives
`71.25000000000001`, not `3 * 23.75 = 71.25`.  And with `cpuSeconds = 10` the
power override `0.049999999999999996` (the `float64` just below `0.05`) and the
larger override `0.05` give the same estimate, so the estimate is not strictly
increasing in the override. -/
theorem estimateCO2_override_not_proportional :
    F64.gt (F64.ofRat 3600 1) F64.zero = true ∧ F64.gt (F64.ofRat 3 1) F64.zero = true ∧
    F64.gt (F64.ofRat 5 100) F64.zero = true ∧ F64.gt (F64.ofRat 475 1) F64.zero = true ∧
    ¬ (F64.eq
        (EstimateCO2 (F64.ofRat 3600 1)
          (some (Config.mk (F64.mul (F64.ofRat 3 1) (F64.ofRat 5 100)) (F64.ofRat 475 1)))).1
        (F64.mul (F64.ofRat 3 1)
          (EstimateCO2 (F64.ofRat 3600 1)
            (some (Config.mk (F64.ofRat 5 100) (F64.ofRat 475 1)))).1) = true) ∧
    F64.gt (F64.fin false (7205759403792793 * 2 ^ 1017)) F64.zero = true ∧
    F64.lt (F64.fin false (7205759403792793 * 2 ^ 1017)) (F64.ofRat 5 100) = true ∧
    ¬ (F64.lt
        (EstimateCO2 (F64.ofRat 10 1)
          (some (Config.mk (F64.fin false (7205759403792793 * 2 ^ 1017)) (F64.ofRat 475 1)))).1
        (EstimateCO2 (F64.ofRat 10 1)
          (some (Config.mk (F64.ofRat 5 100) (F64.ofRat 475 1)))).1 = true) := by
  decide!

/-! ## A small power override against the default it falls back to -/

theorem F64.round_ne_nan (s : Bool) (p q : Nat) : F64.round s p q ≠ F64.nan := by
  unfold F64.round
  split_ifs <;> simp

theorem F64.div_3600_ne_nan (t : F64) (ht : F64.gt t F64.zero = true) :
    F64.div t (F64.ofRat 3600 1) ≠ F64.nan := by
  have hq : 3600 * F64.scale ≠ 0 := Nat.ne_of_gt (Nat.mul_pos (by decide) F64.scale_pos)
  rw [F64.ofRat_3600]
  rcases t with _ | s | ⟨s, a⟩
  · simp [F64.gt, F64.lt, F64.zero] at ht
  · simp [F64.div]
  · simp only [F64.div, if_neg hq]
    exact F64.round_ne_nan _ _ _

theorem F64.mul_fin_ne_nan (s : Bool) (a : Nat) (ha : a ≠ 0) (y : F64) (hy : y ≠ F64.nan) :
    F64.mul (F64.fin s a) y ≠ F64.nan := by
  rcases y with _ | t | ⟨t, b⟩
  · exact absurd rfl hy
  · simp [F64.mul, ha]
  · simp only [F64.mul]
    exact F64.round_ne_nan _ _ _

theorem F64.mul_ne_nan_fin (x : F64) (hx : x ≠ F64.nan) (s : Bool) (a : Nat) (ha : a ≠ 0) :
    F64.mul x (F64.fin s a) ≠ F64.nan := by
  rw [F64.mul_comm]
  exact F64.mul_fin_ne_nan s a ha x hx

theorem F64.ne_zero_of_gt_zero {n : Nat} (h : F64.gt (F64.fin false n) F64.zero = true) :
    n ≠ 0 := by
  simp [F64.gt, F64.lt, F64.zero, F64.toInt] at h
  omega

theorem F64.lt_fin_of_lt {a b : Nat} (h : a < b) :
    F64.lt (F64.fin false a) (F64.fin false b) = true := by
  simp [F64.lt, F64.toInt]
  exact h

theorem F64.val_pos {n : Nat} (h : 0 < n) : 0 < F64.val n := by
  unfold F64.val
  exact div_pos (by exact_mod_cast h) F64.scale_cast_pos

theorem F64.lt_of_val_lt {a b : Nat} (h : F64.val a < F64.val b) : a < b := by
  unfold F64.val at h
  have h2 := (div_lt_div_iff_of_pos_right F64.scale_cast_pos).mp h
  exact_mod_cast h2

/-- A gap of the sizes that survives two roundings on each side. -/
theorem F64.val_gap {n n₀ : Nat}
    (h : n * 9007199254740993 ^ 2 < n₀ * 9007199254740991 ^ 2) :
    F64.val n * (1 + F64.unitRoundoff) ^ 2 < F64.val n₀ * (1 - F64.unitRoundoff) ^ 2 := by
  have hS := F64.scale_cast_pos
  have hc : (n : ℚ) * 9007199254740993 ^ 2 < (n₀ : ℚ) * 9007199254740991 ^ 2 := by
    exact_mod_cast h
  have e₁ : F64.val n * (1 + F64.unitRoundoff) ^ 2
      = (n : ℚ) * 9007199254740993 ^ 2 / ((F64.scale : ℚ) * 2 ^ 106) := by
    unfold F64.val F64.unitRoundoff
    field_simp
    ring
  have e₂ : F64.val n₀ * (1 - F64.unitRoundoff) ^ 2
      = (n₀ : ℚ) * 9007199254740991 ^ 2 / ((F64.scale : ℚ) * 2 ^ 106) := by
    unfold F64.val F64.unitRoundoff
    field_simp
    ring
  rw [e₁, e₂]
  exact div_lt_div_of_pos_right hc (by positivity)

theorem F64.ofRat_5_100 :
    F64.ofRat 5 100 = F64.fin false (7205759403792794 * 2 ^ 1017) := by decide!

theorem F64.ofRat_below_5_100 :
    F64.ofRat 49999999999999975 1000000000000000000
      = F64.fin false (7205759403792790 * 2 ^ 1017) := by decide!

theorem F64.gt_zero_zero : F64.gt F64.zero F64.zero = false := by decide

theorem resolvePower_zero_zero :
    resolvePower (some (Config.mk F64.zero F64.zero)) = F64.ofRat 5 100 := by
  simp only [resolvePower, F64.gt_zero_zero, defaultCPUPowerKW]
  rfl

theorem resolveIntensity_some_zero (P : F64) :
    resolveIntensity (some (Config.mk P F64.zero)) = F64.ofRat 475 1 := by
  simp only [resolveIntensity, F64.gt_zero_zero, defaultCarbonIntensity]
  rfl

/-- A positive power override below the default `0.05` never gives more than
the default does. -/
theorem estimateCO2_small_power_le (t p : F64) (ht : F64.gt t F64.zero = true)
    (hp : F64.gt p F64.zero = true) (hlt : F64.lt p (F64.ofRat 5 100) = true) :
    (EstimateCO2 t (some (Config.mk p F64.zero))).2 = none ∧
    (EstimateCO2 t (some (Config.mk F64.zero F64.zero))).2 = none ∧
    F64.le (EstimateCO2 t (some (Config.mk p F64.zero))).1
      (EstimateCO2 t (some (Config.mk F64.zero F64.zero))).1 = true := by
  have hord := F64.ordNonneg_of_lt p _ hp hlt
  have hP₀ : F64.gt (F64.ofRat 5 100) F64.zero = true := F64.gt_zero_of_ordNonneg _ _ hp hord
  have hI₀ : F64.gt (F64.ofRat 475 1) F64.zero = true := resolveIntensity_pos none
  rw [estimateCO2_of_gt _ _ ht, estimateCO2_of_gt _ _ ht, resolvePower_some_of_gt _ _ hp,
    resolvePower_zero_zero, resolveIntensity_some_zero, resolveIntensity_some_zero]
  have hth : F64.signbit (F64.div t (F64.ofRat 3600 1)) = false :=
    F64.signbit_div _ _ (F64.signbit_of_gt_zero _ ht) (F64.signbit_ofRat _ _)
  have hnn := F64.div_3600_ne_nan t ht
  have h1 := F64.weakLE_mul_right_nonneg p _ _ (Or.inr (Or.inr hord)) hth
  have h2 := F64.weakLE_mul_right _ _ _ h1 hI₀
  refine ⟨rfl, rfl, F64.le_of_weakLE _ _ h2 ?_ ?_⟩
  · obtain ⟨i, ei, wi⟩ := F64.exists_of_moderate (F64.ofRat 475 1) (by decide!)
    rw [ei] at hI₀ ⊢
    apply F64.mul_ne_nan_fin _ _ _ _ (F64.ne_zero_of_gt_zero hI₀)
    rcases p with _ | s | ⟨s, n⟩
    · simp [F64.gt, F64.lt, F64.zero] at hp
    · rw [F64.ofRat_5_100] at hord
      cases s <;> simp [F64.OrdNonneg] at hord
    · cases s with
      | true => simp [F64.OrdNonneg] at hord
      | false => exact F64.mul_fin_ne_nan _ _ (F64.ne_zero_of_gt_zero hp) _ hnn
  · obtain ⟨i, ei, wi⟩ := F64.exists_of_moderate (F64.ofRat 475 1) (by decide!)
    obtain ⟨n₀, e₀, w₀⟩ := F64.exists_of_moderate (F64.ofRat 5 100) (by decide!)
    rw [ei] at hI₀ ⊢
    rw [e₀] at hP₀ ⊢
    exact F64.mul_ne_nan_fin _ (F64.mul_fin_ne_nan _ _ (F64.ne_zero_of_gt_zero hP₀) _ hnn)
      _ _ (F64.ne_zero_of_gt_zero hI₀)

theorem F64.within_of_le_above {k hi : Nat} (x : F64)
    (hlo : F64.le (F64.fin false (2 ^ k)) x = true)
    (hhi : F64.le x (F64.fin false hi) = true) : F64.Within (2 ^ k) hi x :=
  F64.within_of_le_pos (Nat.two_pow_pos k) x hlo hhi

theorem F64.below_default_gap :
    7205759403792790 * 2 ^ 1017 * 9007199254740993 ^ 2
      < 7205759403792794 * 2 ^ 1017 * 9007199254740991 ^ 2 := by decide!

theorem F64.below_default_le : 7205759403792790 * 2 ^ 1017 ≤ 2 ^ 1374 := by decide!

/-- A power override between `2^-300` and `0.049999999999999975` gives
strictly less than the default does, for `cpuSeconds` in `[2^-300, 2^300]`. -/
theorem estimateCO2_small_power_lt (t p : F64) (ht : F64.moderate t = true)
    (hlo : F64.le (F64.twoPow (-300)) p = true)
    (hhi : F64.le p (F64.ofRat 49999999999999975 1000000000000000000) = true) :
    F64.lt (EstimateCO2 t (some (Config.mk p F64.zero))).1
      (EstimateCO2 t (some (Config.mk F64.zero F64.zero))).1 = true := by
  obtain ⟨x, rfl, wx⟩ := F64.exists_of_moderate t ht
  rw [F64.twoPow_neg_300] at hlo
  rw [F64.ofRat_below_5_100] at hhi
  obtain ⟨n, rfl, wn⟩ :=
    F64.exists_of_within p (F64.within_of_le_above p hlo hhi)
  obtain ⟨i, ei, wi⟩ := F64.exists_of_moderate (F64.ofRat 475 1) (by decide!)
  obtain ⟨n₀, e₀, w₀⟩ := F64.exists_of_moderate (F64.ofRat 5 100) (by decide!)
  have hn₀ : n₀ = 7205759403792794 * 2 ^ 1017 := by
    have e := e₀.symm.trans F64.ofRat_5_100
    injection e
  have wn' : 2 ^ 774 ≤ n ∧ n ≤ 2 ^ 1374 := ⟨wn.1, le_trans wn.2 F64.below_default_le⟩
  have gx := F64.gt_zero_of_two_pow_le wx.1
  rw [estimateCO2_of_gt _ _ gx, estimateCO2_of_gt _ _ gx,
    resolvePower_some_of_gt _ _ (F64.gt_zero_of_two_pow_le wn.1),
    resolvePower_zero_zero, resolveIntensity_some_zero, resolveIntensity_some_zero, ei, e₀]
  obtain ⟨h, eh, bh, -⟩ :=
    F64.div_3600_near 762 1363 x (by decide) (by decide) (by decide) (by decide) wx
  obtain ⟨ep, eep, bep, nep⟩ := F64.mul_near (by decide) (by decide) (by decide) wn' bh
  obtain ⟨cp, ecp, -, ncp⟩ := F64.mul_near (by decide) (by decide) (by decide) bep wi
  obtain ⟨ed, eed, bed, ned⟩ := F64.mul_near (by decide) (by decide) (by decide) w₀ bh
  obtain ⟨cd, ecd, -, ncd⟩ := F64.mul_near (by decide) (by decide) (by decide) bed wi
  rw [eh, eep, ecp, eed, ecd]
  apply F64.lt_fin_of_lt
  apply F64.lt_of_val_lt
  have hh : 0 < F64.val h := F64.val_pos (lt_of_lt_of_le (Nat.two_pow_pos _) bh.1)
  have hi : 0 < F64.val i := F64.val_pos (lt_of_lt_of_le (Nat.two_pow_pos _) wi.1)
  have up : F64.Near 2 (F64.val n * F64.val h * F64.val i) (F64.val cp) :=
    F64.near_trans
      (F64.near_mul nep (F64.near_refl _)
        (mul_nonneg (F64.val_nonneg n) (F64.val_nonneg h)) (F64.val_nonneg i)) ncp
  have dn : F64.Near 2 (F64.val n₀ * F64.val h * F64.val i) (F64.val cd) :=
    F64.near_trans
      (F64.near_mul ned (F64.near_refl _)
        (mul_nonneg (F64.val_nonneg n₀) (F64.val_nonneg h)) (F64.val_nonneg i)) ncd
  have hgap : n * 9007199254740993 ^ 2 < n₀ * 9007199254740991 ^ 2 := by
    rw [hn₀]
    exact lt_of_le_of_lt (Nat.mul_le_mul_right _ wn.2) F64.below_default_gap
  have hv := F64.val_gap hgap
  calc F64.val cp ≤ F64.val n * F64.val h * F64.val i * (1 + F64.unitRoundoff) ^ 2 := up.2
    _ = F64.val n * (1 + F64.unitRoundoff) ^ 2 * (F64.val h * F64.val i) := by ring
    _ < F64.val n₀ * (1 - F64.unitRoundoff) ^ 2 * (F64.val h * F64.val i) :=
        mul_lt_mul_of_pos_right hv (mul_pos hh hi)
    _ = F64.val n₀ * F64.val h * F64.val i * (1 - F64.unitRoundoff) ^ 2 := by ring
    _ ≤ F64.val cd := dn.1

/-- Claim C14, as stated, fails: with `cpuSeconds = 10`, the power override
`0.049999999999999996` (the `float64` just below `0.05`) is `> 0` and `< 0.05`,
yet `&Config{CPUPowerKW: p}` and `&Config{CPUPowerKW: 0}` give the same
estimate, so the first is not strictly less. -/
theorem estimateCO2_small_power_not_less :
    F64.gt (F64.ofRat 10 1) F64.zero = true ∧
    F64.gt (F64.fin false (7205759403792793 * 2 ^ 1017)) F64.zero = true ∧
    F64.lt (F64.fin false (7205759403792793 * 2 ^ 1017)) (F64.ofRat 5 100) = true ∧
    F64.valid (F64.fin false (7205759403792793 * 2 ^ 1017)) = true ∧
    EstimateCO2 (F64.ofRat 10 1)
        (some (Config.mk (F64.fin false (7205759403792793 * 2 ^ 1017)) F64.zero))
      = EstimateCO2 (F64.ofRat 10 1) (some (Config.mk F64.zero F64.zero)) ∧
    ¬ (F64.lt
        (EstimateCO2 (F64.ofRat 10 1)
          (some (Config.mk (F64.fin false (7205759403792793 * 2 ^ 1017)) F64.zero))).1
        (EstimateCO2 (F64.ofRat 10 1) (some (Config.mk F64.zero F64.zero))).1 = true) := by
  decide!

/-- Claim C14 (amended): for every `cpuSeconds > 0` and every power `p` with
`0 < p < 0.05`, both calls succeed and
`EstimateCO2(cpuSeconds, &Config{CPUPowerKW: p})` is at most
`EstimateCO2(cpuSeconds, &Config{CPUPowerKW: 0})`, the zero override being
replaced by the default `0.05`; it is strictly less whenever `cpuSeconds` lies
in `[2^-300, 2^300]` and `2^-300 <= p <= 0.049999999999999975` (the fourth
`float64` below `0.05`). -/
theorem estimateCO2_small_power (t p : F64) (ht : F64.gt t F64.zero = true)
    (hp : F64.gt p F64.zero = true) (hlt : F64.lt p (F64.ofRat 5 100) = true) :
    (EstimateCO2 t (some (Config.mk p F64.zero))).2 = none ∧
    (EstimateCO2 t (some (Config.mk F64.zero F64.zero))).2 = none ∧
    F64.le (EstimateCO2 t (some (Config.mk p F64.zero))).1
      (EstimateCO2 t (some (Config.mk F64.zero F64.zero))).1 = true ∧
    (F64.moderate t = true → F64.le (F64.twoPow (-300)) p = true →
      F64.le p (F64.ofRat 49999999999999975 1000000000000000000) = true →
      F64.lt (EstimateCO2 t (some (Config.mk p F64.zero))).1
        (EstimateCO2 t (some (Config.mk F64.zero F64.zero))).1 = true) :=
  ⟨(estimateCO2_small_power_le t p ht hp hlt).1, (estimateCO2_small_power_le t p ht hp hlt).2.1,
    (estimateCO2_small_power_le t p ht hp hlt).2.2, estimateCO2_small_power_lt t p⟩

theorem estimateCO2_small_power_witness :
    F64.gt (F64.ofRat 3600 1) F64.zero = true ∧ F64.gt (F64.ofRat 2 100) F64.zero = true ∧
    F64.lt (F64.ofRat 2 100) (F64.ofRat 5 100) = true ∧
    F64.le (EstimateCO2 (F64.ofRat 3600 1) (some (Config.mk (F64.ofRat 2 100) F64.zero))).1
      (EstimateCO2 (F64.ofRat 3600 1) (some (Config.mk F64.zero F64.zero))).1 = true ∧
    F64.lt (EstimateCO2 (F64.ofRat 3600 1) (some (Config.mk (F64.ofRat 2 100) F64.zero))).1
      (EstimateCO2 (F64.ofRat 3600 1) (some (Config.mk F64.zero F64.zero))).1 = true :=
  ⟨by decide!, by decide!, by decide!,
    (estimateCO2_small_power _ _ (by decide!) (by decide!) (by decide!)).2.2.1,
    (estimateCO2_small_power _ _ (by decide!) (by decide!) (by decide!)).2.2.2
      (by decide!) (by decide!) (by decide!)⟩

/-! ## Strict increase across a gap of a few roundings -/

theorem F64.val_gap_pow (k : Nat) {n n₀ : Nat}
    (h : n * 9007199254740993 ^ k < n₀ * 9007199254740991 ^ k) :
    F64.val n * (1 + F64.unitRoundoff) ^ k < F64.val n₀ * (1 - F64.unitRoundoff) ^ k := by
  have hS := F64.scale_cast_pos
  have hc : (n : ℚ) * 9007199254740993 ^ k < (n₀ : ℚ) * 9007199254740991 ^ k := by
    exact_mod_cast h
  have a₁ : (1 + F64.unitRoundoff : ℚ) = 9007199254740993 / 2 ^ 53 := by
    unfold F64.unitRoundoff
    norm_num
  have a₂ : (1 - F64.unitRoundoff : ℚ) = 9007199254740991 / 2 ^ 53 := by
    unfold F64.unitRoundoff
    norm_num
  rw [a₁, a₂, div_pow, div_pow]
  unfold F64.val
  rw [div_mul_div_comm, div_mul_div_comm]
  exact div_lt_div_of_pos_right hc (by positivity)

theorem F64.val_gap_one {n n₀ : Nat} (h : n * 9007199254740993 < n₀ * 9007199254740991) :
    F64.val n * (1 + F64.unitRoundoff) < F64.val n₀ * (1 - F64.unitRoundoff) := by
  have h1 := @F64.val_gap_pow 1 n n₀ (by simpa using h)
  simpa using h1

theorem F64.exists_fin_pos (x : F64) (hf : F64.isFinite x = true)
    (hp : F64.gt x F64.zero = true) : ∃ n, x = F64.fin false n ∧ n ≠ 0 := by
  rcases x with _ | s | ⟨s, n⟩
  · simp [F64.isFinite] at hf
  · simp [F64.isFinite] at hf
  · cases s with
    | true =>
      simp [F64.gt, F64.lt, F64.zero, F64.toInt] at hp
      omega
    | false => exact ⟨n, rfl, F64.ne_zero_of_gt_zero hp⟩

theorem F64.isFinite_of_lt (x y : F64) (hx : F64.gt x F64.zero = true)
    (h : F64.lt x y = true) (hy : F64.isFinite y = true) : F64.isFinite x = true := by
  rcases x with _ | s | ⟨s, n⟩ <;> rcases y with _ | t | ⟨t, m⟩ <;>
    (try cases s) <;> (try cases t) <;>
    simp [F64.isFinite, F64.gt, F64.lt, F64.zero] at hx h hy ⊢

/-- With finite positive power and intensity the three operations never give
NaN. -/
theorem F64.chain_ne_nan (t P I : F64) (ht : F64.gt t F64.zero = true)
    (hP : F64.isFinite P = true) (hPp : F64.gt P F64.zero = true)
    (hI : F64.isFinite I = true) (hIp : F64.gt I F64.zero = true) :
    F64.mul (F64.mul P (F64.div t (F64.ofRat 3600 1))) I ≠ F64.nan := by
  obtain ⟨p, rfl, hp⟩ := F64.exists_fin_pos P hP hPp
  obtain ⟨i, rfl, hi⟩ := F64.exists_fin_pos I hI hIp
  exact F64.mul_ne_nan_fin _
    (F64.mul_fin_ne_nan _ _ hp _ (F64.div_3600_ne_nan t ht)) _ _ hi

/-- In the moderate range the estimate is strictly larger for the larger
`cpuSeconds`, as soon as the two are more than three roundings apart. -/
theorem estimateCO2_lt_of_gap (a b : F64) (config : Option Config)
    (ha : F64.moderate a = true) (hb : F64.moderate b = true)
    (hp : F64.moderate (resolvePower config) = true)
    (hi : F64.moderate (resolveIntensity config) = true)
    (gap : F64.toRat a * (1 + F64.unitRoundoff) ^ 3
      < F64.toRat b * (1 - F64.unitRoundoff) ^ 3) :
    F64.lt (EstimateCO2 a config).1 (EstimateCO2 b config).1 = true := by
  obtain ⟨x, rfl, wx⟩ := F64.exists_of_moderate a ha
  obtain ⟨y, rfl, wy⟩ := F64.exists_of_moderate b hb
  obtain ⟨p, ep, wp⟩ := F64.exists_of_moderate _ hp
  obtain ⟨i, ei, wi⟩ := F64.exists_of_moderate _ hi
  rw [estimateCO2_of_gt _ _ (F64.gt_zero_of_two_pow_le wx.1),
    estimateCO2_of_gt _ _ (F64.gt_zero_of_two_pow_le wy.1), ep, ei]
  obtain ⟨ca, ea, -, na⟩ :=
    F64.estimate_near 762 1363 x p i (by decide) (by decide) (by decide) (by decide) wx wp wi
  obtain ⟨cb, eb, -, nb⟩ :=
    F64.estimate_near 762 1363 y p i (by decide) (by decide) (by decide) (by decide) wy wp wi
  rw [ea, eb]
  apply F64.lt_fin_of_lt
  apply F64.lt_of_val_lt
  have gap' : F64.val x * (1 + F64.unitRoundoff) ^ 3
      < F64.val y * (1 - F64.unitRoundoff) ^ 3 := gap
  have hK : 0 < F64.val p * F64.val i / 3600 :=
    div_pos (mul_pos (F64.val_pos (lt_of_lt_of_le (Nat.two_pow_pos _) wp.1))
      (F64.val_pos (lt_of_lt_of_le (Nat.two_pow_pos _) wi.1))) (by norm_num)
  calc F64.val ca
      ≤ F64.val p * (F64.val x / 3600) * F64.val i * (1 + F64.unitRoundoff) ^ 3 := na.2
    _ = F64.val x * (1 + F64.unitRoundoff) ^ 3 * (F64.val p * F64.val i / 3600) := by ring
    _ < F64.val y * (1 - F64.unitRoundoff) ^ 3 * (F64.val p * F64.val i / 3600) :=
        mul_lt_mul_of_pos_right gap' hK
    _ = F64.val p * (F64.val y / 3600) * F64.val i * (1 - F64.unitRoundoff) ^ 3 := by ring
    _ ≤ F64.val cb := nb.1

/-- Claim C8 (amended): for every fixed config (nil or not) and all `a`, `b`
with `0 < a < b`, both calls succeed and the estimate does not decrease:
`EstimateCO2(b, config) < EstimateCO2(a, config)` is false, and
`EstimateCO2(a, config) <= EstimateCO2(b, config)` holds whenever neither
result is NaN, in particular whenever the CPU power used and the carbon
intensity used are finite.  The estimate is strictly increasing,
`EstimateCO2(a, config) < EstimateCO2(b, config)`, whenever `a`, `b`, the power
used and the intensity used lie in `[2^-300, 2^300]` and `b` is more than three
roundings above `a`, that is `a * (1 + 2^-53)^3 < b * (1 - 2^-53)^3`; only
values of `cpuSeconds` closer than that can share an estimate. -/
theorem estimateCO2_weakly_increasing (a b : F64) (config : Option Config)
    (ha : F64.gt a F64.zero = true) (hab : F64.lt a b = true) :
    (EstimateCO2 a config).2 = none ∧ (EstimateCO2 b config).2 = none ∧
    F64.lt (EstimateCO2 b config).1 (EstimateCO2 a config).1 = false ∧
    ((EstimateCO2 a config).1 ≠ F64.nan → (EstimateCO2 b config).1 ≠ F64.nan →
      F64.le (EstimateCO2 a config).1 (EstimateCO2 b config).1 = true) ∧
    (F64.isFinite (resolvePower config) = true →
      F64.isFinite (resolveIntensity config) = true →
      F64.le (EstimateCO2 a config).1 (EstimateCO2 b config).1 = true) ∧
    (F64.moderate a = true → F64.moderate b = true →
      F64.moderate (resolvePower config) = true →
      F64.moderate (resolveIntensity config) = true →
      F64.toRat a * (1 + F64.unitRoundoff) ^ 3 < F64.toRat b * (1 - F64.unitRoundoff) ^ 3 →
      F64.lt (EstimateCO2 a config).1 (EstimateCO2 b config).1 = true) := by
  have hord := F64.ordNonneg_of_lt a b ha hab
  have hb := F64.gt_zero_of_ordNonneg a b ha hord
  have ea := estimateCO2_of_gt a config ha
  have eb := estimateCO2_of_gt b config hb
  have h1 := F64.ordNonneg_div_3600 a b hord
  have h2 := F64.weakLE_mul_left (resolvePower config) _ _ (Or.inr (Or.inr h1))
    (resolvePower_pos config)
  have h3 := F64.weakLE_mul_right _ _ (resolveIntensity config) h2 (resolveIntensity_pos config)
  refine ⟨by rw [ea], by rw [eb], ?_, ?_, ?_, estimateCO2_lt_of_gap a b config⟩
  · rw [ea, eb]
    exact F64.not_lt_of_weakLE _ _ h3
  · rw [ea, eb]
    exact F64.le_of_weakLE _ _ h3
  · intro hP hI
    rw [ea, eb]
    exact F64.le_of_weakLE _ _ h3
      (F64.chain_ne_nan a _ _ ha hP (resolvePower_pos config) hI (resolveIntensity_pos config))
      (F64.chain_ne_nan b _ _ hb hP (resolvePower_pos config) hI (resolveIntensity_pos config))

theorem estimateCO2_weakly_increasing_witness :
    F64.gt (F64.fin false (1800 * F64.scale)) F64.zero = true ∧
    F64.lt (F64.fin false (1800 * F64.scale)) (F64.fin false (3600 * F64.scale)) = true ∧
    F64.lt (EstimateCO2 (F64.fin false (3600 * F64.scale)) none).1
      (EstimateCO2 (F64.fin false (1800 * F64.scale)) none).1 = false ∧
    F64.le (EstimateCO2 (F64.fin false (1800 * F64.scale)) none).1
      (EstimateCO2 (F64.fin false (3600 * F64.scale)) none).1 = true ∧
    F64.lt (EstimateCO2 (F64.fin false (1800 * F64.scale)) none).1
      (EstimateCO2 (F64.fin false (3600 * F64.scale)) none).1 = true :=
  ⟨by decide!, by decide!,
    (estimateCO2_weakly_increasing (F64.fin false (1800 * F64.scale))
      (F64.fin false (3600 * F64.scale)) none (by decide!) (by decide!)).2.2.1,
    (estimateCO2_weakly_increasing (F64.fin false (1800 * F64.scale))
      (F64.fin false (3600 * F64.scale)) none (by decide!) (by decide!)).2.2.2.2.1
      (by decide!) (by decide!),
    (estimateCO2_weakly_increasing (F64.fin false (1800 * F64.scale))
      (F64.fin false (3600 * F64.scale)) none (by decide!) (by decide!)).2.2.2.2.2
      (by decide!) (by decide!) (by decide!) (by decide!)
      (F64.val_gap_pow 3 (by decide!))⟩

/-! ## Strict increase in the overrides -/

/-- With a finite raised power and a finite intensity in use, raising a
positive power override gives at least as much. -/
theorem estimateCO2_mono_power_le (t P P' I : F64) (ht : F64.gt t F64.zero = true)
    (hP : F64.gt P F64.zero = true) (hPP : F64.lt P P' = true)
    (hf : F64.isFinite P' = true)
    (hfi : F64.isFinite (resolveIntensity (some (Config.mk P I))) = true) :
    F64.le (EstimateCO2 t (some (Config.mk P I))).1 (EstimateCO2 t (some (Config.mk P' I))).1
      = true := by
  have hord := F64.ordNonneg_of_lt P P' hP hPP
  have hP' := F64.gt_zero_of_ordNonneg P P' hP hord
  rw [estimateCO2_of_gt _ _ ht, estimateCO2_of_gt _ _ ht, resolvePower_some_of_gt P I hP,
    resolvePower_some_of_gt P' I hP', resolveIntensity_some_irrel P P' I]
  have hth : F64.signbit (F64.div t (F64.ofRat 3600 1)) = false :=
    F64.signbit_div _ _ (F64.signbit_of_gt_zero _ ht) (F64.signbit_ofRat _ _)
  have h1 := F64.weakLE_mul_right_nonneg P P' _ (Or.inr (Or.inr hord)) hth
  have h2 := F64.weakLE_mul_right _ _ _ h1 (resolveIntensity_pos (some (Config.mk P' I)))
  exact F64.le_of_weakLE _ _ h2
    (F64.chain_ne_nan t _ _ ht (F64.isFinite_of_lt P P' hP hPP hf) hP hfi
      (resolveIntensity_pos _))
    (F64.chain_ne_nan t _ _ ht hf hP' hfi (resolveIntensity_pos _))

/-- With a finite raised intensity and a finite power in use, raising a
positive intensity override gives at least as much. -/
theorem estimateCO2_mono_intensity_le (t P I I' : F64) (ht : F64.gt t F64.zero = true)
    (hI : F64.gt I F64.zero = true) (hII : F64.lt I I' = true)
    (hf : F64.isFinite I' = true)
    (hfp : F64.isFinite (resolvePower (some (Config.mk P I))) = true) :
    F64.le (EstimateCO2 t (some (Config.mk P I))).1 (EstimateCO2 t (some (Config.mk P I'))).1
      = true := by
  have hord := F64.ordNonneg_of_lt I I' hI hII
  have hI' := F64.gt_zero_of_ordNonneg I I' hI hord
  rw [estimateCO2_of_gt _ _ ht, estimateCO2_of_gt _ _ ht, resolveIntensity_some_of_gt P I hI,
    resolveIntensity_some_of_gt P I' hI', resolvePower_some_irrel P I I']
  have hth : F64.signbit (F64.div t (F64.ofRat 3600 1)) = false :=
    F64.signbit_div _ _ (F64.signbit_of_gt_zero _ ht) (F64.signbit_ofRat _ _)
  have he : F64.signbit (F64.mul (resolvePower (some (Config.mk P I')))
      (F64.div t (F64.ofRat 3600 1))) = false :=
    F64.signbit_mul _ _ (F64.signbit_of_gt_zero _ (resolvePower_pos _)) hth
  have h1 := F64.weakLE_mul_left_nonneg _ I I' (Or.inr (Or.inr hord)) he
  exact F64.le_of_weakLE _ _ h1
    (F64.chain_ne_nan t _ _ ht hfp (resolvePower_pos _)
      (F64.isFinite_of_lt I I' hI hII hf) hI)
    (F64.chain_ne_nan t _ _ ht hfp (resolvePower_pos _) hf hI')

/-- In the moderate range the estimate is strictly larger for the larger power
override, as soon as the two are more than two roundings apart. -/
theorem estimateCO2_lt_of_power_gap (t P P' I : F64) (ht : F64.moderate t = true)
    (hP : F64.moderate P = true) (hP' : F64.moderate P' = true)
    (hI : F64.moderate I = true)
    (gap : F64.toRat P * (1 + F64.unitRoundoff) ^ 2
      < F64.toRat P' * (1 - F64.unitRoundoff) ^ 2) :
    F64.lt (EstimateCO2 t (some (Config.mk P I))).1 (EstimateCO2 t (some (Config.mk P' I))).1
      = true := by
  obtain ⟨x, rfl, wx⟩ := F64.exists_of_moderate t ht
  obtain ⟨p, rfl, wp⟩ := F64.exists_of_moderate P hP
  obtain ⟨q, rfl, wq⟩ := F64.exists_of_moderate P' hP'
  obtain ⟨i, rfl, wi⟩ := F64.exists_of_moderate I hI
  have gx := F64.gt_zero_of_two_pow_le wx.1
  rw [estimateCO2_of_gt _ _ gx, estimateCO2_of_gt _ _ gx,
    resolvePower_some_of_gt _ _ (F64.gt_zero_of_two_pow_le wp.1),
    resolvePower_some_of_gt _ _ (F64.gt_zero_of_two_pow_le wq.1),
    resolveIntensity_some_of_gt (F64.fin false p) _ (F64.gt_zero_of_two_pow_le wi.1),
    resolveIntensity_some_of_gt (F64.fin false q) _ (F64.gt_zero_of_two_pow_le wi.1)]
  obtain ⟨h, eh, bh, -⟩ :=
    F64.div_3600_near 762 1363 x (by decide) (by decide) (by decide) (by decide) wx
  obtain ⟨ep, eep, bep, nep⟩ := F64.mul_near (by decide) (by decide) (by decide) wp bh
  obtain ⟨cp, ecp, -, ncp⟩ := F64.mul_near (by decide) (by decide) (by decide) bep wi
  obtain ⟨eq, eeq, beq, neq⟩ := F64.mul_near (by decide) (by decide) (by decide) wq bh
  obtain ⟨cq, ecq, -, ncq⟩ := F64.mul_near (by decide) (by decide) (by decide) beq wi
  rw [eh, eep, ecp, eeq, ecq]
  apply F64.lt_fin_of_lt
  apply F64.lt_of_val_lt
  have hh : 0 < F64.val h := F64.val_pos (lt_of_lt_of_le (Nat.two_pow_pos _) bh.1)
  have hi : 0 < F64.val i := F64.val_pos (lt_of_lt_of_le (Nat.two_pow_pos _) wi.1)
  have up : F64.Near 2 (F64.val p * F64.val h * F64.val i) (F64.val cp) :=
    F64.near_trans
      (F64.near_mul nep (F64.near_refl _)
        (mul_nonneg (F64.val_nonneg p) (F64.val_nonneg h)) (F64.val_nonneg i)) ncp
  have dn : F64.Near 2 (F64.val q * F64.val h * F64.val i) (F64.val cq) :=
    F64.near_trans
      (F64.near_mul neq (F64.near_refl _)
        (mul_nonneg (F64.val_nonneg q) (F64.val_nonneg h)) (F64.val_nonneg i)) ncq
  have gap' : F64.val p * (1 + F64.unitRoundoff) ^ 2
      < F64.val q * (1 - F64.unitRoundoff) ^ 2 := gap
  calc F64.val cp ≤ F64.val p * F64.val h * F64.val i * (1 + F64.unitRoundoff) ^ 2 := up.2
    _ = F64.val p * (1 + F64.unitRoundoff) ^ 2 * (F64.val h * F64.val i) := by ring
    _ < F64.val q * (1 - F64.unitRoundoff) ^ 2 * (F64.val h * F64.val i) :=
        mul_lt_mul_of_pos_right gap' (mul_pos hh hi)
    _ = F64.val q * F64.val h * F64.val i * (1 - F64.unitRoundoff) ^ 2 := by ring
    _ ≤ F64.val cq := dn.1

/-- In the moderate range the estimate is strictly larger for the larger
intensity override, as soon as the two are more than one rounding apart. -/
theorem estimateCO2_lt_of_intensity_gap (t P I I' : F64) (ht : F64.moderate t = true)
    (hP : F64.moderate P = true) (hI : F64.moderate I = true)
    (hI' : F64.moderate I' = true)
    (gap : F64.toRat I * (1 + F64.unitRoundoff) < F64.toRat I' * (1 - F64.unitRoundoff)) :
    F64.lt (EstimateCO2 t (some (Config.mk P I))).1 (EstimateCO2 t (some (Config.mk P I'))).1
      = true := by
  obtain ⟨x, rfl, wx⟩ := F64.exists_of_moderate t ht
  obtain ⟨p, rfl, wp⟩ := F64.exists_of_moderate P hP
  obtain ⟨i, rfl, wi⟩ := F64.exists_of_moderate I hI
  obtain ⟨j, rfl, wj⟩ := F64.exists_of_moderate I' hI'
  have gx := F64.gt_zero_of_two_pow_le wx.1
  rw [estimateCO2_of_gt _ _ gx, estimateCO2_of_gt _ _ gx,
    resolvePower_some_of_gt _ (F64.fin false i) (F64.gt_zero_of_two_pow_le wp.1),
    resolvePower_some_of_gt _ (F64.fin false j) (F64.gt_zero_of_two_pow_le wp.1),
    resolveIntensity_some_of_gt _ _ (F64.gt_zero_of_two_pow_le wi.1),
    resolveIntensity_some_of_gt _ _ (F64.gt_zero_of_two_pow_le wj.1)]
  obtain ⟨h, eh, bh, -⟩ :=
    F64.div_3600_near 762 1363 x (by decide) (by decide) (by decide) (by decide) wx
  obtain ⟨e, ee, be, -⟩ := F64.mul_near (by decide) (by decide) (by decide) wp bh
  obtain ⟨ci, eci, -, nci⟩ := F64.mul_near (by decide) (by decide) (by decide) be wi
  obtain ⟨cj, ecj, -, ncj⟩ := F64.mul_near (by decide) (by decide) (by decide) be wj
  rw [eh, ee, eci, ecj]
  apply F64.lt_fin_of_lt
  apply F64.lt_of_val_lt
  have he : 0 < F64.val e := F64.val_pos (lt_of_lt_of_le (Nat.two_pow_pos _) be.1)
  have up := nci.2
  have dn := ncj.1
  rw [pow_one] at up dn
  have gap' : F64.val i * (1 + F64.unitRoundoff) < F64.val j * (1 - F64.unitRoundoff) := gap
  calc F64.val ci ≤ F64.val e * F64.val i * (1 + F64.unitRoundoff) := up
    _ = F64.val i * (1 + F64.unitRoundoff) * F64.val e := by ring
    _ < F64.val j * (1 - F64.unitRoundoff) * F64.val e := mul_lt_mul_of_pos_right gap' he
    _ = F64.val e * F64.val j * (1 - F64.unitRoundoff) := by ring
    _ ≤ F64.val cj := dn

/-- Claim C13 (amended): for `cpuSeconds` in `[2^-300, 2^300]`, a factor `k`
and a config whose `CPUPowerKW` and `CarbonIntensity` all lie in
`[2^-100, 2^100]`, multiplying `CPUPowerKW` by `k` (or `CarbonIntensity` by
`k`) gives a finite estimate that differs from `k` times the original estimate
by at most `2^-49` of its own value.  For every `cpuSeconds > 0`, raising a
positive `CPUPowerKW` (or a positive `CarbonIntensity`), the other field left as
it is, never lowers the estimate, and gives `<=` whenever the raised field and
the other parameter in use are finite.  The estimate is strictly increasing in
each override when `cpuSeconds` and both fields lie in `[2^-300, 2^300]` and
the raised value is clear of the old one: `P * (1 + 2^-53)^2 < P' * (1 - 2^-53)^2`
for the power, `I * (1 + 2^-53) < I' * (1 - 2^-53)` for the intensity; only
overrides closer than that can share an estimate. -/
theorem estimateCO2_override_scaling :
    (∀ t k P I : F64, F64.moderate t = true → F64.moderate100 k = true →
      F64.moderate100 P = true → F64.moderate100 I = true →
      ((EstimateCO2 t (some (Config.mk (F64.mul k P) I))).2 = none ∧
        (EstimateCO2 t (some (Config.mk P I))).2 = none ∧
        F64.isFinite (EstimateCO2 t (some (Config.mk (F64.mul k P) I))).1 = true ∧
        F64.isFinite (F64.mul k (EstimateCO2 t (some (Config.mk P I))).1) = true ∧
        |F64.toRat (EstimateCO2 t (some (Config.mk (F64.mul k P) I))).1
            - F64.toRat (F64.mul k (EstimateCO2 t (some (Config.mk P I))).1)|
          ≤ F64.toRat (EstimateCO2 t (some (Config.mk (F64.mul k P) I))).1 / 2 ^ 49) ∧
      ((EstimateCO2 t (some (Config.mk P (F64.mul k I)))).2 = none ∧
        (EstimateCO2 t (some (Config.mk P I))).2 = none ∧
        F64.isFinite (EstimateCO2 t (some (Config.mk P (F64.mul k I)))).1 = true ∧
        F64.isFinite (F64.mul k (EstimateCO2 t (some (Config.mk P I))).1) = true ∧
        |F64.toRat (EstimateCO2 t (some (Config.mk P (F64.mul k I)))).1
            - F64.toRat (F64.mul k (EstimateCO2 t (some (Config.mk P I))).1)|
          ≤ F64.toRat (EstimateCO2 t (some (Config.mk P (F64.mul k I)))).1 / 2 ^ 49)) ∧
    (∀ t P P' I : F64, F64.gt t F64.zero = true → F64.gt P F64.zero = true →
      F64.lt P P' = true →
      (EstimateCO2 t (some (Config.mk P I))).2 = none ∧
      (EstimateCO2 t (some (Config.mk P' I))).2 = none ∧
      F64.lt (EstimateCO2 t (some (Config.mk P' I))).1
        (EstimateCO2 t (some (Config.mk P I))).1 = false ∧
      (F64.isFinite P' = true →
        F64.isFinite (resolveIntensity (some (Config.mk P I))) = true →
        F64.le (EstimateCO2 t (some (Config.mk P I))).1
          (EstimateCO2 t (some (Config.mk P' I))).1 = true) ∧
      (F64.moderate t = true → F64.moderate P = true → F64.moderate P' = true →
        F64.moderate I = true →
        F64.toRat P * (1 + F64.unitRoundoff) ^ 2
          < F64.toRat P' * (1 - F64.unitRoundoff) ^ 2 →
        F64.lt (EstimateCO2 t (some (Config.mk P I))).1
          (EstimateCO2 t (some (Config.mk P' I))).1 = true)) ∧
    (∀ t P I I' : F64, F64.gt t F64.zero = true → F64.gt I F64.zero = true →
      F64.lt I I' = true →
      (EstimateCO2 t (some (Config.mk P I))).2 = none ∧
      (EstimateCO2 t (some (Config.mk P I'))).2 = none ∧
      F64.lt (EstimateCO2 t (some (Config.mk P I'))).1
        (EstimateCO2 t (some (Config.mk P I))).1 = false ∧
      (F64.isFinite I' = true →
        F64.isFinite (resolvePower (some (Config.mk P I))) = true →
        F64.le (EstimateCO2 t (some (Config.mk P I))).1
          (EstimateCO2 t (some (Config.mk P I'))).1 = true) ∧
      (F64.moderate t = true → F64.moderate P = true → F64.moderate I = true →
        F64.moderate I' = true →
        F64.toRat I * (1 + F64.unitRoundoff) < F64.toRat I' * (1 - F64.unitRoundoff) →
        F64.lt (EstimateCO2 t (some (Config.mk P I))).1
          (EstimateCO2 t (some (Config.mk P I'))).1 = true)) :=
  ⟨fun t k P I ht hk hP hI =>
      ⟨estimateCO2_scale_power_approx t k P I ht hk hP hI,
        estimateCO2_scale_intensity_approx t k P I ht hk hP hI⟩,
    fun t P P' I ht hP hPP =>
      ⟨(estimateCO2_mono_power t P P' I ht hP hPP).1,
        (estimateCO2_mono_power t P P' I ht hP hPP).2.1,
        (estimateCO2_mono_power t P P' I ht hP hPP).2.2,
        estimateCO2_mono_power_le t P P' I ht hP hPP,
        estimateCO2_lt_of_power_gap t P P' I⟩,
    fun t P I I' ht hI hII =>
      ⟨(estimateCO2_mono_intensity t P I I' ht hI hII).1,
        (estimateCO2_mono_intensity t P I I' ht hI hII).2.1,
        (estimateCO2_mono_intensity t P I I' ht hI hII).2.2,
        estimateCO2_mono_intensity_le t P I I' ht hI hII,
        estimateCO2_lt_of_intensity_gap t P I I'⟩⟩

theorem estimateCO2_override_scaling_witness :
    F64.moderate (F64.ofRat 3600 1) = true ∧ F64.moderate100 (F64.ofRat 3 1) = true ∧
    F64.moderate100 (F64.ofRat 5 100) = true ∧ F64.moderate100 (F64.ofRat 475 1) = true ∧
    |F64.toRat (EstimateCO2 (F64.ofRat 3600 1)
          (some (Config.mk (F64.mul (F64.ofRat 3 1) (F64.ofRat 5 100)) (F64.ofRat 475 1)))).1
        - F64.toRat (F64.mul (F64.ofRat 3 1) (EstimateCO2 (F64.ofRat 3600 1)
            (some (Config.mk (F64.ofRat 5 100) (F64.ofRat 475 1)))).1)|
      ≤ F64.toRat (EstimateCO2 (F64.ofRat 3600 1)
          (some (Config.mk (F64.mul (F64.ofRat 3 1) (F64.ofRat 5 100)) (F64.ofRat 475 1)))).1
          / 2 ^ 49 ∧
    F64.gt (F64.fin false (3600 * F64.scale)) F64.zero = true ∧
    F64.gt (F64.fin false (1 * F64.scale)) F64.zero = true ∧
    F64.lt (F64.fin false (1 * F64.scale)) (F64.fin false (2 * F64.scale)) = true ∧
    F64.le (EstimateCO2 (F64.fin false (3600 * F64.scale))
          (some (Config.mk (F64.fin false (1 * F64.scale)) (F64.fin false (300 * F64.scale))))).1
        (EstimateCO2 (F64.fin false (3600 * F64.scale))
          (some (Config.mk (F64.fin false (2 * F64.scale))
            (F64.fin false (300 * F64.scale))))).1 = true ∧
    F64.lt (EstimateCO2 (F64.fin false (3600 * F64.scale))
          (some (Config.mk (F64.fin false (1 * F64.scale)) (F64.fin false (300 * F64.scale))))).1
        (EstimateCO2 (F64.fin false (3600 * F64.scale))
          (some (Config.mk (F64.fin false (2 * F64.scale))
            (F64.fin false (300 * F64.scale))))).1 = true ∧
    F64.gt (F64.fin false (300 * F64.scale)) F64.zero = true ∧
    F64.lt (F64.fin false (300 * F64.scale)) (F64.fin false (475 * F64.scale)) = true ∧
    F64.lt (EstimateCO2 (F64.fin false (3600 * F64.scale))
          (some (Config.mk (F64.fin false (1 * F64.scale)) (F64.fin false (300 * F64.scale))))).1
        (EstimateCO2 (F64.fin false (3600 * F64.scale))
          (some (Config.mk (F64.fin false (1 * F64.scale))
            (F64.fin false (475 * F64.scale))))).1 = true :=
  ⟨by decide!, by decide!, by decide!, by decide!,
    (estimateCO2_override_scaling.1 _ _ _ _ (by decide!) (by decide!) (by decide!)
      (by decide!)).1.2.2.2.2,
    by decide!, by decide!, by decide!,
    (estimateCO2_override_scaling.2.1 (F64.fin false (3600 * F64.scale))
      (F64.fin false (1 * F64.scale)) (F64.fin false (2 * F64.scale))
      (F64.fin false (300 * F64.scale)) (by decide!) (by decide!) (by decide!)).2.2.2.1
      (by decide!) (by decide!),
    (estimateCO2_override_scaling.2.1 (F64.fin false (3600 * F64.scale))
      (F64.fin false (1 * F64.scale)) (F64.fin false (2 * F64.scale))
      (F64.fin false (300 * F64.scale)) (by decide!) (by decide!) (by decide!)).2.2.2.2
      (by decide!) (by decide!) (by decide!) (by decide!) (F64.val_gap_pow 2 (by decide!)),
    by decide!, by decide!,
    (estimateCO2_override_scaling.2.2 (F64.fin false (3600 * F64.scale))
      (F64.fin false (1 * F64.scale)) (F64.fin false (300 * F64.scale))
      (F64.fin false (475 * F64.scale)) (by decide!) (by decide!) (by decide!)).2.2.2.2
      (by decide!) (by decide!) (by decide!) (by decide!) (F64.val_gap_one (by decide!))⟩

end CarbonGo
